import Mathlib

/-!
Verification development for the Letify rental-listing pipeline.

The Python source is embedded shallowly: pure helpers become Lean
functions, the PostgreSQL tables become lists of records, and each
database method becomes an explicit state-passing function.  Machine
integers are modelled as `Nat`/`Int`; the MD5 digest used for the
content hash is implemented in full so that hash values can be
computed inside proofs.
-/

namespace Letify

/-! ## MD5 (hashlib.md5(...).hexdigest())

A complete executable MD5 over byte lists, words modelled as `Nat`
with explicit reduction modulo `2^32`. -/

/-- Truncate to a 32-bit word. -/
def w32 (n : Nat) : Nat := n % 4294967296

/-- Addition modulo 2^32. -/
def wadd (a b : Nat) : Nat := w32 (a + b)

/-- Bitwise complement on 32-bit words. -/
def wnot (a : Nat) : Nat := Nat.xor (w32 a) 4294967295

/-- Rotate a 32-bit word left by `s` bits (for `x < 2^32`, `s ≤ 32`). -/
def rotl (x s : Nat) : Nat := w32 (x * 2 ^ s + x / 2 ^ (32 - s))

def md5F (b c d : Nat) : Nat := Nat.lor (Nat.land b c) (Nat.land (wnot b) d)

def md5G (b c d : Nat) : Nat := Nat.lor (Nat.land d b) (Nat.land (wnot d) c)

def md5H (b c d : Nat) : Nat := Nat.xor b (Nat.xor c d)

def md5I (b c d : Nat) : Nat := Nat.xor c (Nat.lor b (wnot d))

/-- The 64 standard MD5 sine-derived constants. -/
def md5K : List Nat := [
  0xd76aa478, 0xe8c7b756, 0x242070db, 0xc1bdceee,
  0xf57c0faf, 0x4787c62a, 0xa8304613, 0xfd469501,
  0x698098d8, 0x8b44f7af, 0xffff5bb1, 0x895cd7be,
  0x6b901122, 0xfd987193, 0xa679438e, 0x49b40821,
  0xf61e2562, 0xc040b340, 0x265e5a51, 0xe9b6c7aa,
  0xd62f105d, 0x02441453, 0xd8a1e681, 0xe7d3fbc8,
  0x21e1cde6, 0xc33707d6, 0xf4d50d87, 0x455a14ed,
  0xa9e3e905, 0xfcefa3f8, 0x676f02d9, 0x8d2a4c8a,
  0xfffa3942, 0x8771f681, 0x6d9d6122, 0xfde5380c,
  0xa4beea44, 0x4bdecfa9, 0xf6bb4b60, 0xbebfbc70,
  0x289b7ec6, 0xeaa127fa, 0xd4ef3085, 0x04881d05,
  0xd9d4d039, 0xe6db99e5, 0x1fa27cf8, 0xc4ac5665,
  0xf4292244, 0x432aff97, 0xab9423a7, 0xfc93a039,
  0x655b59c3, 0x8f0ccc92, 0xffeff47d, 0x85845dd1,
  0x6fa87e4f, 0xfe2ce6e0, 0xa3014314, 0x4e0811a1,
  0xf7537e82, 0xbd3af235, 0x2ad7d2bb, 0xeb86d391]

/-- The per-round left-rotation amounts. -/
def md5S : List Nat := [
  7, 12, 17, 22, 7, 12, 17, 22, 7, 12, 17, 22, 7, 12, 17, 22,
  5, 9, 14, 20, 5, 9, 14, 20, 5, 9, 14, 20, 5, 9, 14, 20,
  4, 11, 16, 23, 4, 11, 16, 23, 4, 11, 16, 23, 4, 11, 16, 23,
  6, 10, 15, 21, 6, 10, 15, 21, 6, 10, 15, 21, 6, 10, 15, 21]

/-- One MD5 round on state `(a, b, c, d)` with message words `m`. -/
def md5Step (m : List Nat) (st : Nat × Nat × Nat × Nat) (i : Nat) :
    Nat × Nat × Nat × Nat :=
  let (a, b, c, d) := st
  let fg : Nat × Nat :=
    if i < 16 then (md5F b c d, i)
    else if i < 32 then (md5G b c d, (5 * i + 1) % 16)
    else if i < 48 then (md5H b c d, (3 * i + 5) % 16)
    else (md5I b c d, (7 * i) % 16)
  let f := w32 (fg.1 + a + md5K.getD i 0 + m.getD fg.2 0)
  (d, wadd b (rotl f (md5S.getD i 0)), b, c)

/-- Process one 16-word chunk. -/
def md5Chunk (st : Nat × Nat × Nat × Nat) (m : List Nat) :
    Nat × Nat × Nat × Nat :=
  let r := (List.range 64).foldl (md5Step m) st
  (wadd st.1 r.1, wadd st.2.1 r.2.1, wadd st.2.2.1 r.2.2.1, wadd st.2.2.2 r.2.2.2)

/-- Read the `j`-th little-endian 32-bit word of a byte list. -/
def leWord (bs : List Nat) (j : Nat) : Nat :=
  bs.getD (4 * j) 0 + 256 * bs.getD (4 * j + 1) 0 +
    65536 * bs.getD (4 * j + 2) 0 + 16777216 * bs.getD (4 * j + 3) 0

def chunkWords (bs : List Nat) : List Nat := (List.range 16).map (leWord bs)

/-- MD5 padding: `0x80`, zeros to 56 mod 64, then the bit length little-endian. -/
def md5Pad (msg : List Nat) : List Nat :=
  let n := msg.length
  let zeros := (120 - (n + 1) % 64) % 64
  let lenBytes := (List.range 8).map (fun i => 8 * n / 2 ^ (8 * i) % 256)
  msg ++ 128 :: List.replicate zeros 0 ++ lenBytes

/-- Split a byte list whose length is a multiple of 64 into 64-byte chunks. -/
def chunks64 (l : List Nat) : List (List Nat) :=
  (List.range (l.length / 64)).map (fun i => (l.drop (64 * i)).take 64)

def md5Init : Nat × Nat × Nat × Nat :=
  (0x67452301, 0xefcdab89, 0x98badcfe, 0x10325476)

def md5Core (msg : List Nat) : Nat × Nat × Nat × Nat :=
  ((chunks64 (md5Pad msg)).map chunkWords).foldl md5Chunk md5Init

def hexDigitChar (n : Nat) : Char :=
  if n < 10 then Char.ofNat (48 + n) else Char.ofNat (87 + n)

def byteHex (b : Nat) : List Char := [hexDigitChar (b / 16), hexDigitChar (b % 16)]

/-- Hex rendering of one state word, least-significant byte first. -/
def wordLEHex (w : Nat) : List Char :=
  byteHex (w % 256) ++ byteHex (w / 256 % 256) ++
    byteHex (w / 65536 % 256) ++ byteHex (w / 16777216 % 256)

def md5Hex (msg : List Nat) : String :=
  let r := md5Core msg
  String.mk (wordLEHex r.1 ++ wordLEHex r.2.1 ++ wordLEHex r.2.2.1 ++ wordLEHex r.2.2.2)

/-- UTF-8 encoding of one code point (Python `str.encode()`). -/
def utf8Bytes (c : Nat) : List Nat :=
  if c < 128 then [c]
  else if c < 2048 then [192 + c / 64, 128 + c % 64]
  else if c < 65536 then [224 + c / 4096, 128 + c / 64 % 64, 128 + c % 64]
  else [240 + c / 262144, 128 + c / 4096 % 64, 128 + c / 64 % 64, 128 + c % 64]

def strBytes (s : String) : List Nat :=
  s.data.foldr (fun ch acc => utf8Bytes ch.toNat ++ acc) []

/-- The `hashlib.md5(s.encode()).hexdigest()` -/
def md5 (s : String) : String := md5Hex (strBytes s)

/-! ## Listing model (src/models/property.py) -/

inductive OfferingType where
  | rental
  | sale
deriving DecidableEq

def OfferingType.value : OfferingType → String
  | .rental => "rental"
  | .sale => "sale"

inductive PropertyType where
  | apartment
  | house
  | room
  | studio
deriving DecidableEq

def PropertyType.value : PropertyType → String
  | .apartment => "APARTMENT"
  | .house => "HOUSE"
  | .room => "ROOM"
  | .studio => "STUDIO"

inductive InteriorType where
  | shell
  | upholstered
  | furnished
deriving DecidableEq

def InteriorType.value : InteriorType → String
  | .shell => "shell"
  | .upholstered => "upholstered"
  | .furnished => "furnished"

/-- The `PropertyListing` dataclass.  `Optional` fields become `Option`; the
`float` field `service_costs` is only carried through, modelled as `Rat`;
`features : Dict[str, Dict[str, str]]` becomes an association list. -/
structure Listing where
  source : String
  source_id : Option String := none
  url : Option String := none
  title : Option String := none
  address : Option String := none
  postal_code : Option String := none
  city : Option String := none
  neighborhood : Option String := none
  price : Option String := none
  price_numeric : Option Int := none
  price_period : Option String := none
  service_costs : Option Rat := none
  description : Option String := none
  property_type : Option PropertyType := none
  offering_type : Option OfferingType := some .rental
  living_area : Option Int := none
  plot_area : Option Int := none
  volume : Option Int := none
  rooms : Option Int := none
  bedrooms : Option Int := none
  bathrooms : Option Int := none
  floors : Option Int := none
  balcony : Option Bool := none
  garden : Option Bool := none
  parking : Option Bool := none
  construction_year : Option Int := none
  energy_label : Option String := none
  interior : Option InteriorType := none
  date_listed : Option String := none
  date_available : Option String := none
  availability_period : Option String := none
  date_scraped : String := ""
  images : List String := []
  features : List (String × List (String × String)) := []
  property_hash : Option String := none
deriving DecidableEq

/-- Python f-string rendering of an optional string (`None` prints as "None"). -/
def pyFmtOpt : Option String → String
  | some s => s
  | none => "None"

/-- The `PropertyListing.generate_property_hash`: MD5 over
`f"{url}|{address}|{source_id}|{city}"`. -/
def generatePropertyHash (l : Listing) : String :=
  md5 (pyFmtOpt l.url ++ "|" ++ pyFmtOpt l.address ++ "|" ++
       pyFmtOpt l.source_id ++ "|" ++ pyFmtOpt l.city)

/-- Python truthiness of an optional string (`None` and `""` are falsy). -/
def pyTruthyS : Option String → Bool
  | some s => s != ""
  | none => false

/-- Python truthiness of an optional int (`None` and `0` are falsy). -/
def pyTruthyI : Option Int → Bool
  | some n => n != 0
  | none => false

/-- The identifier list built by `ParariusScraper._generate_property_hash`. -/
def parariusIdentifiers (l : Listing) : List String :=
  (if pyTruthyS l.url then [l.url.getD ""] else []) ++
  (if pyTruthyS l.source_id then [l.source_id.getD ""] else []) ++
  (if pyTruthyS l.title then [l.title.getD ""] else []) ++
  (if pyTruthyS l.address then [l.address.getD ""] else []) ++
  (if pyTruthyS l.postal_code then [l.postal_code.getD ""] else []) ++
  (if pyTruthyS l.city then [l.city.getD ""] else []) ++
  (if pyTruthyI l.living_area then ["area:" ++ toString (l.living_area.getD 0)] else []) ++
  (if pyTruthyI l.price_numeric then ["price:" ++ toString (l.price_numeric.getD 0)] else []) ++
  (if pyTruthyI l.rooms then ["rooms:" ++ toString (l.rooms.getD 0)] else [])

/-- The `ParariusScraper._generate_property_hash`.  The `uuid.uuid4()` draw used
when no identifier is available is modelled as the explicit argument
`freshUuid`. -/
def parariusGeneratePropertyHash (freshUuid : String) (l : Listing) : String :=
  let ids := parariusIdentifiers l
  let ids := if ids.isEmpty then [freshUuid] else ids
  md5 (String.intercalate "|" (ids.filter (· != "")))

/-- The hash under which `save_listing` stores a listing: the pre-set
`property_hash` when truthy, else the freshly generated one
(`if not listing.property_hash: listing.generate_property_hash()`). -/
def effectivePropertyHash (l : Listing) : String :=
  match l.property_hash with
  | some h => if h = "" then generatePropertyHash l else h
  | none => generatePropertyHash l

/-! ## Listing store (src/database/property_db.py)

The `properties` table is a list of rows; autoincrement ids are threaded
through `nextId`.  Only the columns touched by `save_listing` and by the
matching SQL are modelled (the `coordinates`, `location` and
`description_embedding` columns of migrations.py are never written by the
embedded operations). -/

/-- One row of `properties`, as written by `save_listing`. -/
structure PropRow where
  id : Nat
  source : String
  source_id : Option String
  property_hash : String
  url : Option String
  title : Option String
  address : Option String
  postal_code : Option String
  city : Option String
  neighborhood : Option String
  price : Option String
  price_numeric : Option Int
  price_period : Option String
  service_costs : Option Rat
  description : Option String
  property_type : Option String
  offering_type : Option String
  living_area : Option Int
  plot_area : Option Int
  volume : Option Int
  rooms : Option Int
  bedrooms : Option Int
  bathrooms : Option Int
  floors : Option Int
  balcony : Option Bool
  garden : Option Bool
  parking : Option Bool
  construction_year : Option Int
  energy_label : Option String
  interior : Option String
  date_listed : Option String
  date_available : Option String
  availability_period : Option String
  date_scraped : Int
  images : List String
  features : List (String × List (String × String))
deriving DecidableEq

structure PropertyDB where
  rows : List PropRow
  nextId : Nat
deriving DecidableEq

/-- SQL equality between two nullable text values (`NULL = x` is never true). -/
def sqlEqStrOpt : Option String → Option String → Bool
  | some a, some b => a == b
  | _, _ => false

/-- The lookup predicate of `save_listing`:
`(source = %s AND source_id = %s) OR property_hash = %s`. -/
def listingLookupMatch (l : Listing) (h : String) (r : PropRow) : Bool :=
  (r.source == l.source && sqlEqStrOpt r.source_id l.source_id) || r.property_hash == h

/-- The UPDATE branch of `save_listing`: overwrites every listed column of
the matched row — `source` and `property_hash` are not in the SET list and
keep their stored values, while `date_scraped` is set to `datetime.now()`
(modelled by `now`). -/
def updateRowFromListing (now : Int) (l : Listing) (r : PropRow) : PropRow :=
  { r with
    source_id := l.source_id
    url := l.url
    title := l.title
    address := l.address
    postal_code := l.postal_code
    city := l.city
    neighborhood := l.neighborhood
    price := l.price
    price_numeric := l.price_numeric
    price_period := l.price_period
    service_costs := l.service_costs
    description := l.description
    property_type := l.property_type.map PropertyType.value
    offering_type := l.offering_type.map OfferingType.value
    living_area := l.living_area
    plot_area := l.plot_area
    volume := l.volume
    rooms := l.rooms
    bedrooms := l.bedrooms
    bathrooms := l.bathrooms
    floors := l.floors
    balcony := l.balcony
    garden := l.garden
    parking := l.parking
    construction_year := l.construction_year
    energy_label := l.energy_label
    interior := l.interior.map InteriorType.value
    date_listed := l.date_listed
    date_available := l.date_available
    availability_period := l.availability_period
    date_scraped := now
    images := l.images
    features := l.features }

/-- The INSERT branch of `save_listing`. -/
def insertRowFromListing (rid : Nat) (now : Int) (h : String) (l : Listing) : PropRow :=
  { id := rid
    source := l.source
    source_id := l.source_id
    property_hash := h
    url := l.url
    title := l.title
    address := l.address
    postal_code := l.postal_code
    city := l.city
    neighborhood := l.neighborhood
    price := l.price
    price_numeric := l.price_numeric
    price_period := l.price_period
    service_costs := l.service_costs
    description := l.description
    property_type := l.property_type.map PropertyType.value
    offering_type := l.offering_type.map OfferingType.value
    living_area := l.living_area
    plot_area := l.plot_area
    volume := l.volume
    rooms := l.rooms
    bedrooms := l.bedrooms
    bathrooms := l.bathrooms
    floors := l.floors
    balcony := l.balcony
    garden := l.garden
    parking := l.parking
    construction_year := l.construction_year
    energy_label := l.energy_label
    interior := l.interior.map InteriorType.value
    date_listed := l.date_listed
    date_available := l.date_available
    availability_period := l.availability_period
    date_scraped := now
    images := l.images
    features := l.features }

/-- The `PropertyDatabase.save_listing`: ensure the hash, look the listing up by
natural key or content hash, UPDATE if found else INSERT.  Returns
`(is_new, database)`. -/
def saveListing (now : Int) (l : Listing) (db : PropertyDB) : Bool × PropertyDB :=
  let h := effectivePropertyHash l
  match db.rows.find? (listingLookupMatch l h) with
  | some r =>
      (false, { db with
        rows := db.rows.map fun x =>
          if x.id == r.id then updateRowFromListing now l x else x })
  | none =>
      (true, { rows := db.rows ++ [insertRowFromListing db.nextId now h l],
               nextId := db.nextId + 1 })

/-- The `PropertyDatabase.get_property_id_by_source_id`. -/
def getPropertyIdBySourceId (source : String) (sourceId : Option String)
    (db : PropertyDB) : Option Nat :=
  (db.rows.find? fun r => r.source == source && sqlEqStrOpt r.source_id sourceId).map (·.id)

/-! ### Scan history (`scan_history`, UNIQUE (source, city)) -/

structure ScanHistoryRow where
  source : String
  city : String
  scan_time : Int
  url : String
  new_listings_count : Nat
  total_listings_count : Nat
deriving DecidableEq

/-- The `PropertyDatabase.update_scan_history`: INSERT ... ON CONFLICT
(source, city) DO UPDATE — an upsert keyed on `(source, city)`. -/
def updateScanHistory (now : Int) (source city url : String)
    (newCount totalCount : Nat) (hist : List ScanHistoryRow) : List ScanHistoryRow :=
  if hist.any (fun r => r.source == source && r.city == city) then
    hist.map fun r =>
      if r.source == source && r.city == city then
        { r with
          scan_time := now
          url := url
          new_listings_count := newCount
          total_listings_count := totalCount }
      else r
  else
    hist ++ [{ source := source
               city := city
               scan_time := now
               url := url
               new_listings_count := newCount
               total_listings_count := totalCount }]

/-- The `PropertyDatabase.get_last_scan_time`. -/
def getLastScanTime (source city : String) (hist : List ScanHistoryRow) : Option Int :=
  (hist.find? fun r => r.source == source && r.city == city).map (·.scan_time)

/-! ### Query URLs (`query_urls`)

`add_query_url` is modelled together with a check of its SQL statement
against the table schema created by `database/migrations.py`: a statement
whose VALUES arity differs from its column list, or which references a
column absent from the schema, errors in PostgreSQL, so the except branch
rolls back and returns `-1`. -/

/-- Columns of `query_urls` as created by `initialize_db`. -/
def queryUrlsSchemaColumns : List String :=
  ["id", "source", "queryurl", "method", "enabled", "last_scan_time", "description"]

/-- The column list named by the INSERT in `add_query_url`. -/
def addQueryUrlInsertColumns : List String :=
  ["source", "queryurl", "method", "enabled", "description"]

/-- The number of `%s` placeholders in the VALUES clause of `add_query_url`. -/
def addQueryUrlPlaceholderCount : Nat := 7

/-- The columns assigned by the ON CONFLICT ... DO UPDATE SET clause of
`add_query_url` (via `EXCLUDED.*`). -/
def addQueryUrlConflictSetColumns : List String :=
  ["method", "enabled", "description", "request_body", "custom_headers"]

/-- An INSERT ... ON CONFLICT statement is accepted by PostgreSQL only when
its VALUES arity matches its column list and every referenced column exists
in the table schema. -/
def insertStatementAccepted (schema insCols : List String) (placeholders : Nat)
    (confCols : List String) : Bool :=
  insCols.length == placeholders &&
    insCols.all (schema.contains ·) && confCols.all (schema.contains ·)

structure QueryUrlRow where
  id : Nat
  source : String
  queryurl : String
  method : String
  enabled : Bool
  last_scan_time : Option Int
  description : Option String
deriving DecidableEq

structure QueryUrlTable where
  rows : List QueryUrlRow
  nextId : Nat
deriving DecidableEq

/-- The `PropertyDatabase.add_query_url`.  The upsert keyed on
`(source, queryurl)` runs only if PostgreSQL accepts the statement;
otherwise the exception handler rolls back and returns `-1`. -/
def addQueryUrl (source queryurl method : String) (enabled : Bool)
    (description : Option String) (tbl : QueryUrlTable) : Int × QueryUrlTable :=
  if insertStatementAccepted queryUrlsSchemaColumns addQueryUrlInsertColumns
      addQueryUrlPlaceholderCount addQueryUrlConflictSetColumns then
    match tbl.rows.find? (fun r => r.source == source && r.queryurl == queryurl) with
    | some r =>
        ((r.id : Int),
         { tbl with
           rows := tbl.rows.map fun x =>
             if x.id == r.id then
               { x with method := method, enabled := enabled, description := description }
             else x })
    | none =>
        ((tbl.nextId : Int),
         { rows := tbl.rows ++ [{ id := tbl.nextId
                                  source := source
                                  queryurl := queryurl
                                  method := method
                                  enabled := enabled
                                  last_scan_time := none
                                  description := description }]
           nextId := tbl.nextId + 1 })
  else
    (-1, tbl)

/-! ## Telegram store (src/database/telegram_db.py) -/

/-- A `telegram_users` row (columns the modelled operations read). -/
structure UserRow where
  user_id : Int
  is_active : Bool
  notification_enabled : Bool
deriving DecidableEq

/-- A `user_preferences` row. -/
structure PrefRow where
  user_id : Int
  cities : Option (List String)
  min_price : Option Int
  max_price : Option Int
  min_rooms : Option Int
  max_rooms : Option Int
  property_type : Option String
  min_area : Option Int
  max_area : Option Int
  neighborhood : Option String
deriving DecidableEq

inductive NotifStatus where
  | pending
  | processing
  | sent
  | failed
  | rateLimited
deriving DecidableEq

/-- Textual status values stored in `notification_queue.status`. -/
def NotifStatus.value : NotifStatus → String
  | .pending => "pending"
  | .processing => "processing"
  | .sent => "sent"
  | .failed => "failed"
  | .rateLimited => "rate_limited"

structure QueueEntry where
  id : Nat
  user_id : Int
  property_id : Nat
  created_at : Int
  status : NotifStatus
  attempts : Nat
  last_attempt : Option Int
deriving DecidableEq

structure HistoryRow where
  user_id : Int
  property_id : Nat
  sent_at : Int
deriving DecidableEq

/-- The notifier-side database state: queue and send history. -/
structure NotifyDB where
  queue : List QueueEntry
  nextQueueId : Nat
  history : List HistoryRow
deriving DecidableEq

/-- Python `str.lower`, restricted to the ASCII data of this development. -/
def lowerStr (s : String) : String := String.mk (s.data.map Char.toLower)

/-- Python `str.upper`, restricted to the ASCII data of this development. -/
def upperStr (s : String) : String := String.mk (s.data.map Char.toUpper)

/-- Whether `needle` occurs as a contiguous infix of `haystack`. -/
def listInfixOf [BEq α] (needle : List α) : List α → Bool
  | [] => needle.isEmpty
  | h :: t => needle.isPrefixOf (h :: t) || listInfixOf needle t

/-- SQL `a ILIKE CONCAT('%', b, '%')`: case-insensitive substring test. -/
def sqlILikeContains (haystack needle : String) : Bool :=
  listInfixOf (lowerStr needle).data (lowerStr haystack).data

/-! ### The matching WHERE clause of `add_matched_properties_to_queue`

Each conjunct of the SQL predicate becomes a named Boolean condition.
SQL three-valued logic: a conjunct of shape `x IS NULL OR cmp` is TRUE iff
`x` is NULL or the comparison is TRUE; a comparison against a NULL listing
value is UNKNOWN, hence not TRUE. -/

/-- The `up.cities IS NULL OR %s = ANY(up.cities)` — the city parameter is the
listing's upper-cased city. -/
def citiesCond (cities : Option (List String)) (cityParam : String) : Bool :=
  match cities with
  | none => true
  | some cs => cs.contains cityParam

/-- The `up.min_x IS NULL OR %s >= up.min_x` for a listing value `v`. -/
def minCond (v : Option Int) (prefMin : Option Int) : Bool :=
  match prefMin with
  | none => true
  | some m => match v with
    | some x => decide (m ≤ x)
    | none => false

/-- The `up.max_x IS NULL OR %s <= up.max_x OR up.max_x = 0` for a listing value `v`. -/
def maxCond (v : Option Int) (prefMax : Option Int) : Bool :=
  match prefMax with
  | none => true
  | some m =>
      (match v with
       | some x => decide (x ≤ m)
       | none => false) || m == 0

/-- The `up.property_type IS NULL OR %s = up.property_type`. -/
def typeCond (propType : Option String) (prefType : Option String) : Bool :=
  match prefType with
  | none => true
  | some t => match propType with
    | some pt => pt == t
    | none => false

/-- The `up.neighborhood IS NULL OR %s ILIKE CONCAT('%', up.neighborhood, '%')`. -/
def neighborhoodCond (propN : Option String) (prefN : Option String) : Bool :=
  match prefN with
  | none => true
  | some n => match propN with
    | some pn => sqlILikeContains pn n
    | none => false

/-- The full WHERE clause of the fan-out INSERT ... SELECT, in statement
order.  The listing parameters are taken from the property row at the
column positions of the `properties` schema (`property_row[8]` = city,
`[11]` = price_numeric, `[20]` = rooms, `[15]` = property_type,
`[17]` = living_area, `[9]` = neighborhood). -/
def matchCond (tu : UserRow) (up : PrefRow) (cityParam : String) (prop : PropRow) : Bool :=
  tu.is_active &&
  up.cities.isSome &&
  tu.notification_enabled &&
  citiesCond up.cities cityParam &&
  minCond prop.price_numeric up.min_price &&
  maxCond prop.price_numeric up.max_price &&
  minCond prop.rooms up.min_rooms &&
  maxCond prop.rooms up.max_rooms &&
  typeCond prop.property_type up.property_type &&
  minCond prop.living_area up.min_area &&
  maxCond prop.living_area up.max_area &&
  neighborhoodCond prop.neighborhood up.neighborhood

/-- The `JOIN user_preferences up ON tu.user_id = up.user_id`. -/
def joinUsersPrefs (users : List UserRow) (prefs : List PrefRow) :
    List (UserRow × PrefRow) :=
  users.foldr
    (fun tu acc => (prefs.filter (fun up => up.user_id == tu.user_id)).map (tu, ·) ++ acc)
    []

/-- Fresh queue entries for the eligible (user, preference) pairs, with
sequentially assigned ids. -/
def mkQueueEntries (nid : Nat) (now : Int) (pid : Nat) :
    List (UserRow × PrefRow) → List QueueEntry
  | [] => []
  | p :: ps =>
      { id := nid
        user_id := p.1.user_id
        property_id := pid
        created_at := now
        status := .pending
        attempts := 0
        last_attempt := none } :: mkQueueEntries (nid + 1) now pid ps

/-- The `TelegramDatabase.add_matched_properties_to_queue`: load the property
row, fan the listing out to all users passing the WHERE clause, skipping
existing `(user_id, property_id)` pairs (ON CONFLICT DO NOTHING), and
return `cur.rowcount` — the number of rows actually inserted.  A property
whose `city` is NULL makes `property_row[8].upper()` raise, which the
except branch turns into a rollback and `0`. -/
def addMatchedPropertiesToQueue (now : Int) (users : List UserRow)
    (prefs : List PrefRow) (props : PropertyDB) (pid : Nat)
    (ndb : NotifyDB) : Nat × NotifyDB :=
  match props.rows.find? (fun r => r.id == pid) with
  | none => (0, ndb)
  | some prop =>
    match prop.city with
    | none => (0, ndb)
    | some city =>
      let cityParam := upperStr city
      let eligible := (joinUsersPrefs users prefs).filter
        (fun p => matchCond p.1 p.2 cityParam prop)
      let ins := eligible.filter fun p =>
        !(ndb.queue.any fun e => e.user_id == p.1.user_id && e.property_id == pid)
      (ins.length,
       { queue := ndb.queue ++ mkQueueEntries ndb.nextQueueId now pid ins
         nextQueueId := ndb.nextQueueId + ins.length
         history := ndb.history })

/-! ### Queue operations -/

/-- Insertion into a list kept sorted by `created_at` (ORDER BY created_at ASC). -/
def insertByCreatedAt (e : QueueEntry) : List QueueEntry → List QueueEntry
  | [] => [e]
  | x :: xs =>
      if e.created_at ≤ x.created_at then e :: x :: xs
      else x :: insertByCreatedAt e xs

def sortByCreatedAt (l : List QueueEntry) : List QueueEntry :=
  l.foldr insertByCreatedAt []

/-- The `TelegramDatabase.get_pending_notifications`: only `pending` rows of
users that are active with notifications enabled, joined to an existing
property row, in `created_at` order, limited. -/
def getPendingNotifications (limit : Nat) (users : List UserRow)
    (props : PropertyDB) (queue : List QueueEntry) : List QueueEntry :=
  (sortByCreatedAt (queue.filter fun e =>
      e.status == .pending &&
      (props.rows.any fun p => p.id == e.property_id) &&
      (users.any fun tu =>
        tu.user_id == e.user_id && tu.is_active && tu.notification_enabled))).take limit

/-- The `TelegramDatabase.update_notification_status`: set the status (and the
attempts counter when given) of the row with the given id. -/
def updateNotificationStatus (now : Int) (nid : Nat) (status : NotifStatus)
    (attempts : Option Nat) (queue : List QueueEntry) : List QueueEntry :=
  queue.map fun e =>
    if e.id == nid then
      { e with
        status := status
        attempts := attempts.getD e.attempts
        last_attempt := some now }
    else e

/-- The `TelegramDatabase.record_notification_sent`: upsert of
`(user_id, property_id)` into `notification_history` with `sent_at = NOW()`. -/
def recordNotificationSent (now : Int) (uid : Int) (pid : Nat)
    (hist : List HistoryRow) : List HistoryRow :=
  if hist.any (fun h => h.user_id == uid && h.property_id == pid) then
    hist.map fun h =>
      if h.user_id == uid && h.property_id == pid then { h with sent_at := now } else h
  else
    hist ++ [{ user_id := uid, property_id := pid, sent_at := now }]

/-! ## Delivery worker
(src/telegram_bot/telegram_notification_manager.py, `process_notification_queue`)

The batch loop is modelled as a step function over a state carrying the
notifier database and the in-batch `user_notification_counts` dictionary.
The Telegram transport is abstracted by `sendOk : Nat → Bool`, giving the
overall success of `send_notification` for a queue entry id (its internal
retry loop only determines this Boolean). -/

/-- How the worker resolved one picked queue entry. -/
inductive Outcome where
  | rateLimited
  | sent
  | failed
deriving DecidableEq

structure WorkerState where
  ndb : NotifyDB
  counts : List (Int × Nat)
deriving DecidableEq

def lookupCount (counts : List (Int × Nat)) (uid : Int) : Option Nat :=
  (counts.find? (fun c => c.1 == uid)).map (·.2)

/-- Assignment into the `user_notification_counts` dictionary. -/
def setCount : List (Int × Nat) → Int → Nat → List (Int × Nat)
  | [], uid, n => [(uid, n)]
  | c :: cs, uid, n => if c.1 == uid then (uid, n) :: cs else c :: setCount cs uid n

/-- The `SELECT COUNT(*) FROM notification_history WHERE user_id = %s AND
sent_at > NOW() - INTERVAL '24 hours'`. -/
def historyCount24 (now : Int) (hist : List HistoryRow) (uid : Int) : Nat :=
  (hist.filter fun h => h.user_id == uid && decide (now - 86400 < h.sent_at)).length

/-- The body of the `for notification in notifications` loop, for one
entry: daily-cap check (per-batch counter seeded from the history count on
first encounter of the user), then mark `processing` with `attempts + 1`,
send, and resolve to `sent` or `failed`. -/
def workerStep (now : Int) (maxPerDay : Nat) (sendOk : Nat → Bool)
    (st : WorkerState) (n : QueueEntry) : WorkerState × Outcome :=
  let rateLimit := fun (counts : List (Int × Nat)) =>
    ({ ndb := { st.ndb with
         queue := updateNotificationStatus now n.id .rateLimited none st.ndb.queue }
       counts := counts },
     Outcome.rateLimited)
  -- "Check if still below limit", then `processing` / send / resolve
  let proceed := fun (counts : List (Int × Nat)) (c : Nat) =>
    if maxPerDay ≤ c then rateLimit counts
    else
      let attempts := n.attempts + 1
      let q1 := updateNotificationStatus now n.id .processing (some attempts) st.ndb.queue
      if sendOk n.id then
        ({ ndb := { queue := updateNotificationStatus now n.id .sent none q1
                    nextQueueId := st.ndb.nextQueueId
                    history := recordNotificationSent now n.user_id n.property_id
                      st.ndb.history }
           counts := setCount counts n.user_id (c + 1) },
         Outcome.sent)
      else
        ({ ndb := { queue := updateNotificationStatus now n.id .failed (some attempts) q1
                    nextQueueId := st.ndb.nextQueueId
                    history := st.ndb.history }
           counts := counts },
         Outcome.failed)
  -- `if user_id in user_notification_counts: if count >= MAX: rate_limited`
  match lookupCount st.counts n.user_id with
  | some c0 =>
      if maxPerDay ≤ c0 then rateLimit st.counts else proceed st.counts c0
  | none =>
      -- seed the counter from the live history count
      let c := historyCount24 now st.ndb.history n.user_id
      proceed (setCount st.counts n.user_id c) c

/-- Run the worker over a picked batch, collecting the per-entry outcomes
in order. -/
def workerRun (now : Int) (maxPerDay : Nat) (sendOk : Nat → Bool)
    (st : WorkerState) : List QueueEntry → WorkerState × List Outcome
  | [] => (st, [])
  | n :: rest =>
      let r := workerStep now maxPerDay sendOk st n
      let rr := workerRun now maxPerDay sendOk r.1 rest
      (rr.1, r.2 :: rr.2)

/-- The `process_notification_queue`: pick up to `batch_size` pending entries
and run the worker over them starting from an empty per-batch counter
dictionary. -/
def processNotificationQueue (now : Int) (maxPerDay : Nat) (batchSize : Nat)
    (sendOk : Nat → Bool) (users : List UserRow) (props : PropertyDB)
    (ndb : NotifyDB) : WorkerState × List QueueEntry × List Outcome :=
  let batch := getPendingNotifications batchSize users props ndb.queue
  let r := workerRun now maxPerDay sendOk { ndb := ndb, counts := [] } batch
  (r.1, batch, r.2)

/-! ## Scheduler: query-URL loop (src/main.py, `run_one_scan`)

The loop over enabled query URLs is embedded as a fold.  The combined
fetch-and-parse of `scan_query_url` is abstracted by an oracle
`fetchQ : id → (new_count, total_count, final_url)`; `scan_query_url`
never raises (its except branch returns `(0, 0, "")`).  The state records
`first_scan_by_source` (as the complement set `notFirst`),
`sources_to_skip`, and the ordered trace of URLs actually fetched. -/

structure QUrl where
  id : Nat
  source : String
  queryurl : String
  last_scan_time : Option Int
deriving DecidableEq

structure QScanState where
  notFirst : List String
  skips : List String
  fetched : List (String × Nat)
deriving DecidableEq

/-- The per-URL interval gate of `run_one_scan`
(`time_since_last_scan < source_min_interval` suppresses the scan). -/
def qShouldScan (minInterval : String → Int) (now : Int) (q : QUrl) : Bool :=
  match q.last_scan_time with
  | none => true
  | some t => !(decide (now - t < minInterval q.source))

/-- The body of `for query_url in query_urls_by_source[source]`, including
the per-URL interval gate and the pagination stop rules. -/
def qStep (stopAfterNoResult : Bool) (minInterval : String → Int) (now : Int)
    (fetchQ : Nat → Nat × Nat × String) (st : QScanState) (q : QUrl) : QScanState :=
  if st.skips.contains q.source then st
  else
    if !qShouldScan minInterval now q then st
    else
      let r := fetchQ q.id
      let newCount := r.1
      let totalCount := r.2.1
      let finalUrl := r.2.2
      let firstScan := !(st.notFirst.contains q.source)
      let st := { st with fetched := st.fetched ++ [(q.source, q.id)] }
      if firstScan && newCount == 0 && totalCount != 0 then
        { st with skips := q.source :: st.skips }
      else if firstScan && totalCount == 0 then
        { st with skips := q.source :: st.skips }
      else if !firstScan && newCount == 0 && totalCount != 0 then
        { st with skips := q.source :: st.skips }
      else if stopAfterNoResult && lowerStr q.source == "pararius"
          && q.queryurl != finalUrl then
        { st with skips := q.source :: st.skips }
      else if stopAfterNoResult && totalCount == 0 then
        { st with skips := q.source :: st.skips }
      else
        { st with notFirst := q.source :: st.notFirst }

/-- The query-URL phase of one scan cycle, over the per-source-grouped URL
list (already flattened in iteration order). -/
def qRun (stopAfterNoResult : Bool) (minInterval : String → Int) (now : Int)
    (fetchQ : Nat → Nat × Nat × String) (st : QScanState)
    (qs : List QUrl) : QScanState :=
  qs.foldl (qStep stopAfterNoResult minInterval now fetchQ) st

/-! ## Scheduler: city loop (src/main.py, `scan_source_city` and the
`(source, city)` loop of `run_one_scan`)

Fetch-and-parse is abstracted by `fetchC : source → city → Option (List
Listing)`; `none` models an exception raised while fetching or parsing,
which `scan_source_city` catches, logs and turns into `(0, 0)` without
touching the database. -/

/-- The scraper-side database state threaded through one scan cycle. -/
structure ScrapeDB where
  props : PropertyDB
  ndb : NotifyDB
  hist : List ScanHistoryRow
deriving DecidableEq

/-- Per-listing body of `scan_source_city`: default the city from context,
upsert, and on INSERT fan the listing out to the queue. -/
def processScanListing (now : Int) (users : List UserRow) (prefs : List PrefRow)
    (city : String) (acc : Nat × ScrapeDB) (l0 : Listing) : Nat × ScrapeDB :=
  let l := if pyTruthyS l0.city then l0 else { l0 with city := some city }
  let r := saveListing now l acc.2.props
  let db := { acc.2 with props := r.2 }
  if r.1 then
    match getPropertyIdBySourceId l.source l.source_id db.props with
    | some pid =>
        (acc.1 + 1,
         { db with ndb := (addMatchedPropertiesToQueue now users prefs db.props pid db.ndb).2 })
    | none => (acc.1 + 1, db)
  else
    (acc.1, db)

/-- The `RealEstateScraper.scan_source_city`.  On a fetch/parse exception the
except branch returns `(0, 0)` and no database write happens — in
particular no `update_scan_history` call. -/
def scanSourceCity (now : Int) (users : List UserRow) (prefs : List PrefRow)
    (fetchC : String → String → Option (List Listing))
    (buildUrl : String → String → String)
    (source city : String) (db : ScrapeDB) : (Nat × Nat) × ScrapeDB :=
  match fetchC source city with
  | none => ((0, 0), db)
  | some listings =>
      let r := listings.foldl (processScanListing now users prefs city) (0, db)
      let db := { r.2 with
        hist := updateScanHistory now source city (buildUrl source city)
          r.1 listings.length r.2.hist }
      ((r.1, listings.length), db)

/-- One `(source, city)` iteration of `run_one_scan`, including the
interval gate read from `scan_history`. -/
def cityStep (now : Int) (minInterval : String → Int) (users : List UserRow)
    (prefs : List PrefRow) (fetchC : String → String → Option (List Listing))
    (buildUrl : String → String → String)
    (acc : (Nat × Nat) × ScrapeDB) (p : String × String) : (Nat × Nat) × ScrapeDB :=
  let shouldScan := match getLastScanTime p.1 p.2 acc.2.hist with
    | none => true
    | some t => !(decide (now - t < minInterval p.1))
  if shouldScan then
    let r := scanSourceCity now users prefs fetchC buildUrl p.1 p.2 acc.2
    ((acc.1.1 + r.1.1, acc.1.2 + r.1.2), r.2)
  else acc

/-- The city phase of one scan cycle over the `(source, city)` grid,
accumulating `(total_new, total_processed)`. -/
def cityRun (now : Int) (minInterval : String → Int) (users : List UserRow)
    (prefs : List PrefRow) (fetchC : String → String → Option (List Listing))
    (buildUrl : String → String → String)
    (pairs : List (String × String)) (db : ScrapeDB) : (Nat × Nat) × ScrapeDB :=
  pairs.foldl (cityStep now minInterval users prefs fetchC buildUrl) ((0, 0), db)

/-! ## Claim C10 -/

/-! ## Auxiliary definitions and concrete instances for the claim theorems -/

/-- A Pararius listing as produced by `parse_search_page` (which sets
`property_hash` via the scraper's own `_generate_property_hash`), price
€1500. -/
def c2base : Listing :=
  { source := "pararius"
    source_id := some "1"
    url := some "u"
    address := some "a"
    city := some "AMSTERDAM"
    price_numeric := some 1500 }

def c2l1 : Listing := { c2base with property_hash := some (parariusGeneratePropertyHash "" c2base) }

def c2base2 : Listing := { c2base with price_numeric := some 1600 }

def c2l2 : Listing := { c2base2 with property_hash := some (parariusGeneratePropertyHash "" c2base2) }

def c2w1 : Listing :=
  { source := "funda", source_id := some "9", url := some "w"
    address := some "b", city := some "UTRECHT", price_numeric := some 900 }

def c2w2 : Listing := { c2w1 with price_numeric := some 1200 }

def c1wl : Listing :=
  { source := "x", source_id := some "1", url := some "u"
    address := some "a", city := some "AMSTERDAM"
    price_numeric := some 1000, property_hash := some "HC1" }

def c7l : Listing :=
  { source := "funda", source_id := some "1", url := some "u"
    address := some "a", city := some "DELFT", property_hash := some "H7" }

def c7wdb : PropertyDB := { rows := [insertRowFromListing 1 0 "H7" c7l], nextId := 2 }

def exUser : UserRow := { user_id := 7, is_active := true, notification_enabled := true }

def exListing : Listing :=
  { source := "funda", source_id := some "f1", url := some "u"
    address := some "a", city := some "Utrecht", neighborhood := some "Centrum"
    price_numeric := some 2500, rooms := some 4, living_area := some 80
    property_type := some .apartment, property_hash := some "HX" }

def exProp : PropRow := insertRowFromListing 1 0 "HX" exListing

def exProps : PropertyDB := { rows := [exProp], nextId := 2 }

def exNdb : NotifyDB := { queue := [], nextQueueId := 1, history := [] }

def c3pref : PrefRow :=
  { user_id := 7, cities := some ["UTRECHT"], min_price := some 1000
    max_price := some 0, min_rooms := none, max_rooms := some 0
    property_type := none, min_area := none, max_area := some 0
    neighborhood := some "cent" }

def c4NullPref : PrefRow :=
  { user_id := 7, cities := none, min_price := none, max_price := none
    min_rooms := none, max_rooms := none, property_type := none
    min_area := none, max_area := none, neighborhood := none }

def c4wPref : PrefRow :=
  { user_id := 7, cities := some ["UTRECHT"], min_price := none
    max_price := none, min_rooms := none, max_rooms := none
    property_type := none, min_area := none, max_area := none
    neighborhood := none }

def c6u1 : QUrl :=
  { id := 1, source := "pararius", queryurl := "https://p/page-9", last_scan_time := none }

def c6u2 : QUrl :=
  { id := 2, source := "pararius", queryurl := "https://p/page-10", last_scan_time := none }

/-- Fetch oracle: the first page redirects to page-1 (1 new of 5 listings),
later pages do not redirect. -/
def c6fetch : Nat → Nat × Nat × String :=
  fun i => if i == 1 then (1, 5, "https://p/page-1") else (1, 5, "https://p/page-10")

def c6st0 : QScanState := { notFirst := [], skips := [], fetched := [] }

def c9user : UserRow := { user_id := 7, is_active := true, notification_enabled := true }

def c9pref : PrefRow :=
  { user_id := 7, cities := some ["UTRECHT"], min_price := none, max_price := none
    min_rooms := none, max_rooms := none, property_type := none
    min_area := none, max_area := none, neighborhood := none }

def c9Listing : Listing :=
  { source := "pararius", source_id := some "abc123", url := some "u"
    address := some "Main 1", city := some "UTRECHT"
    price_numeric := some 1500, property_hash := some "H9" }

/-- Fetch oracle: the funda adapter raises on every city; pararius parses
one listing. -/
def c9fetch : String → String → Option (List Listing) :=
  fun src _ => if src == "funda" then none else some [c9Listing]

def c9db0 : ScrapeDB :=
  { props := { rows := [], nextId := 1 }
    ndb := { queue := [], nextQueueId := 1, history := [] }
    hist := [] }

def c9pairs : List (String × String) := [("funda", "utrecht"), ("pararius", "utrecht")]

def c9buildUrl : String → String → String := fun s c => s ++ ":" ++ c

/-- Number of `sent` resolutions for `uid` among processed entries. -/
def sentFor (uid : Int) (entries : List QueueEntry) (outs : List Outcome) : Nat :=
  ((entries.zip outs).filter (fun p => p.1.user_id == uid && p.2 == Outcome.sent)).length

/-- Contribution of one resolved entry to a user's in-batch sent count. -/
def outcomeBump (uid : Int) (n : QueueEntry) (o : Outcome) : Nat :=
  if n.user_id == uid && o == Outcome.sent then 1 else 0

/-- The soundness relation between the batch-local counter dictionary, the
batch-start history and the sends performed so far (`off`). -/
def workerCountsSound (now : Int) (hist0 : List HistoryRow) (off : Int → Nat)
    (st : WorkerState) : Prop :=
  ∀ uid : Int,
    (lookupCount st.counts uid = none →
      off uid = 0 ∧ historyCount24 now st.ndb.history uid = historyCount24 now hist0 uid) ∧
    (∀ c, lookupCount st.counts uid = some c →
      c = historyCount24 now hist0 uid + off uid)

def c5n : QueueEntry :=
  { id := 1, user_id := 7, property_id := 1, created_at := 0
    status := .pending, attempts := 0, last_attempt := none }

/-- A notifier state whose history already holds one send for user 7
within the last 24 hours. -/
def c5ndb : NotifyDB :=
  { queue := [c5n], nextQueueId := 2
    history := [{ user_id := 7, property_id := 9, sent_at := -100 }] }

def c8user : UserRow := { user_id := 7, is_active := true, notification_enabled := true }

def c8props : PropertyDB :=
  { rows := [insertRowFromListing 1 0 "H8"
      { source := "x", source_id := some "1", city := some "DELFT" }]
    nextId := 2 }

/-- A queue entry that has already failed once. -/
def c8q : QueueEntry :=
  { id := 1, user_id := 7, property_id := 1, created_at := 0
    status := .failed, attempts := 1, last_attempt := some 0 }

def c8n : QueueEntry :=
  { id := 1, user_id := 7, property_id := 1, created_at := 0
    status := .pending, attempts := 0, last_attempt := none }

def c8st : WorkerState :=
  { ndb := { queue := [c8n], nextQueueId := 2, history := [] }
    counts := [(7, 0)] }

/-- C10: `add_query_url` always fails inside the database call and returns
`-1` leaving `query_urls` unchanged: its INSERT names five columns but
supplies seven placeholders, and its ON CONFLICT update references
`request_body` and `custom_headers` columns absent from the `query_urls`
schema, so PostgreSQL rejects the statement and the transaction is rolled
back. -/
theorem addQueryUrl_always_fails (source queryurl meth : String) (enabled : Bool)
    (descr : Option String) (tbl : QueryUrlTable) :
    addQueryUrl source queryurl meth enabled descr tbl = (-1, tbl) ∧
    insertStatementAccepted queryUrlsSchemaColumns addQueryUrlInsertColumns
      addQueryUrlPlaceholderCount addQueryUrlConflictSetColumns = false := by
  have h : insertStatementAccepted queryUrlsSchemaColumns addQueryUrlInsertColumns
      addQueryUrlPlaceholderCount addQueryUrlConflictSetColumns = false := by decide
  exact ⟨by simp [addQueryUrl, h], h⟩

/-! ## Claim C2 -/

set_option maxRecDepth 100000 in
/-- C2 counterexample: two Pararius listings with identical
`(url, address, source_id, city)` but different price receive different
stored content hashes, and the stored hash is not the MD5 of the
pipe-joined tuple. -/

theorem contentHash_not_tuple_determined :
    c2l1.url = c2l2.url ∧ c2l1.address = c2l2.address ∧
    c2l1.source_id = c2l2.source_id ∧ c2l1.city = c2l2.city ∧
    effectivePropertyHash c2l1 ≠ effectivePropertyHash c2l2 ∧
    effectivePropertyHash c2l1 ≠ generatePropertyHash c2l1 := by
  refine ⟨rfl, rfl, rfl, rfl, ?_, ?_⟩ <;> decide

/-- C2 amended: the fallback hash of
`PropertyListing.generate_property_hash` is the MD5 of
`"{url}|{address}|{source_id}|{city}"`, so when no scraper pre-sets
`property_hash` the stored hash is determined by exactly that tuple; the
scrapers' own pre-set hashes (kept verbatim by `save_listing`) also depend
on further fields such as the price. -/
theorem contentHash_tuple_determined_fallback (l1 l2 : Listing)
    (hu : l1.url = l2.url) (ha : l1.address = l2.address)
    (hs : l1.source_id = l2.source_id) (hc : l1.city = l2.city)
    (hh1 : l1.property_hash = none) (hh2 : l2.property_hash = none) :
    effectivePropertyHash l1 = effectivePropertyHash l2 := by
  simp [effectivePropertyHash, hh1, hh2, generatePropertyHash, hu, ha, hs, hc]

/-- C2 amended, witness at a concrete pair of listings differing only in
price and carrying no pre-set hash. -/
theorem contentHash_tuple_determined_fallback_witness :
    effectivePropertyHash c2w1 = effectivePropertyHash c2w2 :=
  contentHash_tuple_determined_fallback c2w1 c2w2 rfl rfl rfl rfl rfl rfl

/-! ## Claim C1 -/

/-- C1: starting from a store where the listing matches no row, a first
`save_listing` returns `is_new = true`, a second identical call returns
`false`, exactly one row matches the listing afterwards, and
`save_listing` returns `true` exactly when it performs an INSERT (the row
count grows by one). -/
theorem saveListing_upsert_idempotent (now₁ now₂ : Int) (l : Listing) (db : PropertyDB)
    (hwf : ∀ r ∈ db.rows, r.id < db.nextId)
    (habs : db.rows.find? (listingLookupMatch l (effectivePropertyHash l)) = none) :
    (saveListing now₁ l db).1 = true ∧
    (saveListing now₂ l (saveListing now₁ l db).2).1 = false ∧
    ((saveListing now₂ l (saveListing now₁ l db).2).2.rows.filter
        (listingLookupMatch l (effectivePropertyHash l))).length = 1 ∧
    (saveListing now₂ l (saveListing now₁ l db).2).2.rows.length = db.rows.length + 1 ∧
    (∀ (n : Int) (l' : Listing) (db' : PropertyDB),
        (saveListing n l' db').1 = true →
        (saveListing n l' db').2.rows.length = db'.rows.length + 1) := by
  set nr := insertRowFromListing db.nextId now₁ (effectivePropertyHash l) l with hnr
  have db1def : (saveListing now₁ l db).2 = { rows := db.rows ++ [nr], nextId := db.nextId + 1 } := by
    simp [saveListing, habs]
  have hnew : listingLookupMatch l (effectivePropertyHash l) nr = true := by
    simp [listingLookupMatch, hnr, insertRowFromListing]
  have e2find : (db.rows ++ [nr]).find? (listingLookupMatch l (effectivePropertyHash l)) =
      some nr := by
    rw [List.find?_append, habs]
    simp [hnew]
  have hmap : ∀ x ∈ db.rows,
      (if x.id == nr.id then updateRowFromListing now₂ l x else x) = x := by
    intro x hx
    have hne : x.id ≠ db.nextId := Nat.ne_of_lt (hwf x hx)
    simp [hnr, insertRowFromListing, hne]
  have rows2 : (saveListing now₂ l (saveListing now₁ l db).2).2.rows =
      db.rows ++ [updateRowFromListing now₂ l nr] := by
    rw [db1def]
    simp only [saveListing, e2find]
    rw [List.map_append, List.map_congr_left hmap]
    simp
  have hupd : listingLookupMatch l (effectivePropertyHash l)
      (updateRowFromListing now₂ l nr) = true := by
    simp [listingLookupMatch, updateRowFromListing, hnr, insertRowFromListing]
  refine ⟨by simp [saveListing, habs], ?_, ?_, ?_, ?_⟩
  · rw [db1def]
    simp [saveListing, e2find]
  · rw [rows2]
    simp only [List.filter_append]
    rw [(List.filter_eq_nil_iff).mpr (List.find?_eq_none.mp habs)]
    simp [hupd]
  · rw [rows2]
    simp
  · intro n l' db' hins
    rcases hf : db'.rows.find? (listingLookupMatch l' (effectivePropertyHash l')) with _ | r
    · simp [saveListing, hf]
    · simp [saveListing, hf] at hins

/-- C1 witness at a concrete listing against the empty store. -/
theorem saveListing_upsert_idempotent_witness :
    (saveListing 10 c1wl { rows := [], nextId := 1 }).1 = true ∧
    (saveListing 20 c1wl (saveListing 10 c1wl { rows := [], nextId := 1 }).2).1 = false ∧
    ((saveListing 20 c1wl (saveListing 10 c1wl { rows := [], nextId := 1 }).2).2.rows.filter
        (listingLookupMatch c1wl (effectivePropertyHash c1wl))).length = 1 ∧
    (saveListing 20 c1wl (saveListing 10 c1wl { rows := [], nextId := 1 }).2).2.rows.length =
      ([] : List PropRow).length + 1 ∧
    (∀ (n : Int) (l' : Listing) (db' : PropertyDB),
        (saveListing n l' db').1 = true →
        (saveListing n l' db').2.rows.length = db'.rows.length + 1) :=
  saveListing_upsert_idempotent 10 20 c1wl { rows := [], nextId := 1 }
    (by intro r hr; cases hr) (by rfl)

/-! ## Claim C7 -/

/-- C7 amended: the UPDATE path of `save_listing` keeps the matched row in
place (same `id`, `source` and `property_hash`, unchanged row count) but
overwrites `date_scraped` with the time of the re-scrape; the originally
stored scrape time is not preserved. -/
theorem saveListing_update_overwrites_scrape_time (now : Int) (l : Listing)
    (db : PropertyDB) (r : PropRow)
    (hfind : db.rows.find? (listingLookupMatch l (effectivePropertyHash l)) = some r) :
    (saveListing now l db).1 = false ∧
    (saveListing now l db).2.rows =
      db.rows.map (fun x => if x.id == r.id then updateRowFromListing now l x else x) ∧
    (saveListing now l db).2.rows.length = db.rows.length ∧
    (updateRowFromListing now l r).id = r.id ∧
    (updateRowFromListing now l r).source = r.source ∧
    (updateRowFromListing now l r).property_hash = r.property_hash ∧
    (updateRowFromListing now l r).date_scraped = now := by
  refine ⟨?_, ?_, ?_, rfl, rfl, rfl, rfl⟩ <;> simp [saveListing, hfind]

/-- C7 counterexample: a listing first saved at time 0 and re-saved at
time 86400 ends with `date_scraped = 86400` — the first-scraped time 0 is
not preserved by the UPDATE path. -/
theorem firstScraped_not_preserved :
    ((saveListing 0 c7l { rows := [], nextId := 1 }).2.rows.map (·.date_scraped)) = [0] ∧
    ((saveListing 86400 c7l
        (saveListing 0 c7l { rows := [], nextId := 1 }).2).2.rows.map (·.date_scraped)) = [86400] := by
  exact ⟨rfl, rfl⟩

/-! ## Claims C3 and C4: the fan-out predicate -/

/-- A zero-valued maximum makes the corresponding WHERE conjunct true for
every listing value (`OR up.max_x = 0`). -/
theorem maxCond_zero_no_bound (v : Option Int) : maxCond v (some 0) = true := by
  cases v <;> simp [maxCond]

theorem mem_joinUsersPrefs {users : List UserRow} {prefs : List PrefRow}
    {tu : UserRow} {up : PrefRow}
    (htu : tu ∈ users) (hup : up ∈ prefs) (hid : up.user_id = tu.user_id) :
    (tu, up) ∈ joinUsersPrefs users prefs := by
  induction users with
  | nil => cases htu
  | cons hd tl ih =>
    have hstep : joinUsersPrefs (hd :: tl) prefs =
        (prefs.filter (fun u => u.user_id == hd.user_id)).map (hd, ·) ++
          joinUsersPrefs tl prefs := rfl
    rw [hstep]
    rcases List.mem_cons.mp htu with heq | htl
    · subst heq
      exact List.mem_append_left _
        (List.mem_map.mpr ⟨up, List.mem_filter.mpr ⟨hup, by simp [hid]⟩, rfl⟩)
    · exact List.mem_append_right _ (ih htl)

theorem mem_mkQueueEntries {p : UserRow × PrefRow} {l : List (UserRow × PrefRow)}
    (hp : p ∈ l) (nid : Nat) (now : Int) (pid : Nat) :
    ∃ e ∈ mkQueueEntries nid now pid l,
      e.user_id = p.1.user_id ∧ e.property_id = pid ∧
      e.status = NotifStatus.pending ∧ e.attempts = 0 ∧ e.created_at = now := by
  induction l generalizing nid with
  | nil => cases hp
  | cons hd tl ih =>
    rcases List.mem_cons.mp hp with heq | htl
    · subst heq
      exact ⟨_, List.mem_cons_self _ _, rfl, rfl, rfl, rfl, rfl⟩
    · obtain ⟨e, he, hprops⟩ := ih htl (nid + 1)
      exact ⟨e, List.mem_cons_of_mem _ he, hprops⟩

/-- When a (user, preference) pair passes the WHERE clause and the pair has
no existing queue entry for the property, `add_matched_properties_to_queue`
inserts a fresh pending entry for it. -/
theorem addMatched_inserts_entry (now : Int) (users : List UserRow)
    (prefs : List PrefRow) (props : PropertyDB) (pid : Nat) (ndb : NotifyDB)
    (prop : PropRow) (city : String) (tu : UserRow) (up : PrefRow)
    (hfind : props.rows.find? (fun r => r.id == pid) = some prop)
    (hcity : prop.city = some city)
    (htu : tu ∈ users) (hup : up ∈ prefs) (hid : up.user_id = tu.user_id)
    (hmatch : matchCond tu up (upperStr city) prop = true)
    (hconf : (ndb.queue.any fun e => e.user_id == tu.user_id && e.property_id == pid) = false) :
    ∃ e ∈ (addMatchedPropertiesToQueue now users prefs props pid ndb).2.queue,
      e.user_id = tu.user_id ∧ e.property_id = pid ∧
      e.status = NotifStatus.pending ∧ e.attempts = 0 ∧ e.created_at = now := by
  have hpair : (tu, up) ∈ (joinUsersPrefs users prefs).filter
      (fun p => matchCond p.1 p.2 (upperStr city) prop) :=
    List.mem_filter.mpr ⟨mem_joinUsersPrefs htu hup hid, hmatch⟩
  have hins : (tu, up) ∈ ((joinUsersPrefs users prefs).filter
      (fun p => matchCond p.1 p.2 (upperStr city) prop)).filter
      (fun p => !(ndb.queue.any fun e => e.user_id == p.1.user_id && e.property_id == pid)) :=
    List.mem_filter.mpr ⟨hpair, by simp [hconf]⟩
  obtain ⟨e, he, hprops⟩ := mem_mkQueueEntries hins ndb.nextQueueId now pid
  refine ⟨e, ?_, hprops⟩
  simp only [addMatchedPropertiesToQueue, hfind, hcity]
  exact List.mem_append_right _ he

/-- C3: a preference with `max_price == 0`, `max_rooms == 0` or
`max_area == 0` imposes no upper bound: whenever each maximum is either
zero or satisfied, and every other conjunct of the WHERE clause holds, the
fan-out still inserts a pending queue entry for the (user, listing) pair,
whatever the listing's price, rooms and living area are. -/
theorem zeroMax_means_no_upper_bound (now : Int) (users : List UserRow)
    (prefs : List PrefRow) (props : PropertyDB) (pid : Nat) (ndb : NotifyDB)
    (prop : PropRow) (city : String) (tu : UserRow) (up : PrefRow)
    (hfind : props.rows.find? (fun r => r.id == pid) = some prop)
    (hcity : prop.city = some city)
    (htu : tu ∈ users) (hup : up ∈ prefs) (hid : up.user_id = tu.user_id)
    (hact : tu.is_active = true) (hen : tu.notification_enabled = true)
    (hcs : up.cities.isSome = true)
    (hcc : citiesCond up.cities (upperStr city) = true)
    (hminp : minCond prop.price_numeric up.min_price = true)
    (hmaxp : up.max_price = some 0 ∨ maxCond prop.price_numeric up.max_price = true)
    (hminr : minCond prop.rooms up.min_rooms = true)
    (hmaxr : up.max_rooms = some 0 ∨ maxCond prop.rooms up.max_rooms = true)
    (htyp : typeCond prop.property_type up.property_type = true)
    (hmina : minCond prop.living_area up.min_area = true)
    (hmaxa : up.max_area = some 0 ∨ maxCond prop.living_area up.max_area = true)
    (hnb : neighborhoodCond prop.neighborhood up.neighborhood = true)
    (hconf : (ndb.queue.any fun e => e.user_id == tu.user_id && e.property_id == pid) = false) :
    ∃ e ∈ (addMatchedPropertiesToQueue now users prefs props pid ndb).2.queue,
      e.user_id = tu.user_id ∧ e.property_id = pid ∧
      e.status = NotifStatus.pending ∧ e.attempts = 0 ∧ e.created_at = now := by
  have hmp : maxCond prop.price_numeric up.max_price = true := by
    rcases hmaxp with h | h
    · rw [h]; exact maxCond_zero_no_bound _
    · exact h
  have hmr : maxCond prop.rooms up.max_rooms = true := by
    rcases hmaxr with h | h
    · rw [h]; exact maxCond_zero_no_bound _
    · exact h
  have hma : maxCond prop.living_area up.max_area = true := by
    rcases hmaxa with h | h
    · rw [h]; exact maxCond_zero_no_bound _
    · exact h
  have hmatch : matchCond tu up (upperStr city) prop = true := by
    simp [matchCond, hact, hen, hcs, hcc, hminp, hmp, hminr, hmr, htyp, hmina, hma, hnb]
  exact addMatched_inserts_entry now users prefs props pid ndb prop city tu up
    hfind hcity htu hup hid hmatch hconf

/-- C3 witness: a user whose maxima are all 0 receives a queue entry for a
€2500, 4-room, 80 m² listing. -/
theorem zeroMax_means_no_upper_bound_witness :
    ∃ e ∈ (addMatchedPropertiesToQueue 3 [exUser] [c3pref] exProps 1 exNdb).2.queue,
      e.user_id = exUser.user_id ∧ e.property_id = 1 ∧
      e.status = NotifStatus.pending ∧ e.attempts = 0 ∧ e.created_at = 3 := by
  apply zeroMax_means_no_upper_bound 3 [exUser] [c3pref] exProps 1 exNdb exProp
    "Utrecht" exUser c3pref <;> decide

/-- C4 counterexample: for an active, notification-enabled user whose
preference row has every field NULL — including `cities` — the fan-out
produces no queue entry at all for a perfectly ordinary listing: the
`up.cities IS NOT NULL` conjunct excludes the user, so a NULL `cities`
field by itself prevents the match. -/
theorem nullCities_prevents_match :
    addMatchedPropertiesToQueue 0 [exUser] [c4NullPref] exProps 1 exNdb = (0, exNdb) := by
  rfl

/-- C4 amended: every NULL preference field other than `cities` is treated
as "no constraint" — with `cities` non-NULL and matching, a user whose
remaining preference fields are all NULL gets a queue entry whatever the
listing's values — while a NULL `cities` field fails the WHERE clause for
every listing. -/
theorem nullFields_no_constraint_except_cities (now : Int) (users : List UserRow)
    (prefs : List PrefRow) (props : PropertyDB) (pid : Nat) (ndb : NotifyDB)
    (prop : PropRow) (city : String) (tu : UserRow) (up : PrefRow) (cs : List String)
    (hfind : props.rows.find? (fun r => r.id == pid) = some prop)
    (hcity : prop.city = some city)
    (htu : tu ∈ users) (hup : up ∈ prefs) (hid : up.user_id = tu.user_id)
    (hact : tu.is_active = true) (hen : tu.notification_enabled = true)
    (hcs : up.cities = some cs) (hcc : upperStr city ∈ cs)
    (h1 : up.min_price = none) (h2 : up.max_price = none)
    (h3 : up.min_rooms = none) (h4 : up.max_rooms = none)
    (h5 : up.property_type = none) (h6 : up.min_area = none)
    (h7 : up.max_area = none) (h8 : up.neighborhood = none)
    (hconf : (ndb.queue.any fun e => e.user_id == tu.user_id && e.property_id == pid) = false) :
    (∃ e ∈ (addMatchedPropertiesToQueue now users prefs props pid ndb).2.queue,
      e.user_id = tu.user_id ∧ e.property_id = pid ∧
      e.status = NotifStatus.pending ∧ e.attempts = 0 ∧ e.created_at = now) ∧
    (∀ (tu' : UserRow) (up' : PrefRow) (c' : String) (prop' : PropRow),
      up'.cities = none → matchCond tu' up' c' prop' = false) := by
  constructor
  · have hmatch : matchCond tu up (upperStr city) prop = true := by
      simp [matchCond, hact, hen, hcs, citiesCond, hcc, minCond, maxCond, typeCond,
        neighborhoodCond, h1, h2, h3, h4, h5, h6, h7, h8]
    exact addMatched_inserts_entry now users prefs props pid ndb prop city tu up
      hfind hcity htu hup hid hmatch hconf
  · intro tu' up' c' prop' hnone
    simp [matchCond, hnone]

/-- C4 amended, witness: all-NULL fields except a matching `cities` list
produce an entry, and NULL `cities` never matches. -/
theorem nullFields_no_constraint_except_cities_witness :
    (∃ e ∈ (addMatchedPropertiesToQueue 4 [exUser] [c4wPref] exProps 1 exNdb).2.queue,
      e.user_id = exUser.user_id ∧ e.property_id = 1 ∧
      e.status = NotifStatus.pending ∧ e.attempts = 0 ∧ e.created_at = 4) ∧
    (∀ (tu' : UserRow) (up' : PrefRow) (c' : String) (prop' : PropRow),
      up'.cities = none → matchCond tu' up' c' prop' = false) := by
  apply nullFields_no_constraint_except_cities 4 [exUser] [c4wPref] exProps 1 exNdb
    exProp "Utrecht" exUser c4wPref ["UTRECHT"] <;> decide

/-- C7 amended, witness at a concrete store holding the matched row. -/
theorem saveListing_update_overwrites_scrape_time_witness :
    (saveListing 5 c7l c7wdb).1 = false ∧
    (saveListing 5 c7l c7wdb).2.rows =
      c7wdb.rows.map (fun x =>
        if x.id == (insertRowFromListing 1 0 "H7" c7l).id
        then updateRowFromListing 5 c7l x else x) ∧
    (saveListing 5 c7l c7wdb).2.rows.length = c7wdb.rows.length ∧
    (updateRowFromListing 5 c7l (insertRowFromListing 1 0 "H7" c7l)).id =
      (insertRowFromListing 1 0 "H7" c7l).id ∧
    (updateRowFromListing 5 c7l (insertRowFromListing 1 0 "H7" c7l)).source =
      (insertRowFromListing 1 0 "H7" c7l).source ∧
    (updateRowFromListing 5 c7l (insertRowFromListing 1 0 "H7" c7l)).property_hash =
      (insertRowFromListing 1 0 "H7" c7l).property_hash ∧
    (updateRowFromListing 5 c7l (insertRowFromListing 1 0 "H7" c7l)).date_scraped = 5 :=
  saveListing_update_overwrites_scrape_time 5 c7l c7wdb
    (insertRowFromListing 1 0 "H7" c7l) (by rfl)

/-! ## Claim C6 -/

theorem contains_cons_of_contains {l : List String} {a : String} (b : String)
    (h : l.contains a = true) : (b :: l).contains a = true := by
  rw [List.contains_cons, h]
  simp

/-- Marked sources stay marked across one query-URL step. -/
theorem qStep_skips_mono (stop : Bool) (minI : String → Int) (now : Int)
    (fetchQ : Nat → Nat × Nat × String) (st : QScanState) (q : QUrl) (s : String)
    (h : st.skips.contains s = true) :
    (qStep stop minI now fetchQ st q).skips.contains s = true := by
  unfold qStep
  split
  · exact h
  · split
    · exact h
    · dsimp only
      split
      · exact contains_cons_of_contains _ h
      · split
        · exact contains_cons_of_contains _ h
        · split
          · exact contains_cons_of_contains _ h
          · split
            · exact contains_cons_of_contains _ h
            · split
              · exact contains_cons_of_contains _ h
              · exact h

/-- One step either leaves the fetch trace unchanged, or appends the
processed URL — and the latter only for a source not marked for skipping. -/
theorem qStep_fetched_cases (stop : Bool) (minI : String → Int) (now : Int)
    (fetchQ : Nat → Nat × Nat × String) (st : QScanState) (q : QUrl) :
    (qStep stop minI now fetchQ st q).fetched = st.fetched ∨
    ((qStep stop minI now fetchQ st q).fetched = st.fetched ++ [(q.source, q.id)] ∧
      st.skips.contains q.source = false) := by
  unfold qStep
  split
  · exact Or.inl rfl
  · rename_i hns
    have hns' : st.skips.contains q.source = false := by
      cases hcc : st.skips.contains q.source
      · rfl
      · exact absurd hcc hns
    split
    · exact Or.inl rfl
    · dsimp only
      refine Or.inr ?_
      split
      · exact ⟨rfl, hns'⟩
      · split
        · exact ⟨rfl, hns'⟩
        · split
          · exact ⟨rfl, hns'⟩
          · split
            · exact ⟨rfl, hns'⟩
            · split
              · exact ⟨rfl, hns'⟩
              · exact ⟨rfl, hns'⟩

/-- Once a source is in `sources_to_skip`, the rest of the cycle adds no
fetch event for it. -/
theorem qRun_no_fetch_for_skipped (stop : Bool) (minI : String → Int) (now : Int)
    (fetchQ : Nat → Nat × Nat × String) (qs : List QUrl) (st : QScanState) (s : String)
    (h : st.skips.contains s = true) :
    ∀ e ∈ (qRun stop minI now fetchQ st qs).fetched, e.1 = s → e ∈ st.fetched := by
  induction qs generalizing st with
  | nil => exact fun e he _ => he
  | cons q rest ih =>
    intro e he hs
    have hstep : qRun stop minI now fetchQ st (q :: rest) =
        qRun stop minI now fetchQ (qStep stop minI now fetchQ st q) rest := rfl
    rw [hstep] at he
    have hrec := ih (qStep stop minI now fetchQ st q)
      (qStep_skips_mono stop minI now fetchQ st q s h) e he hs
    rcases qStep_fetched_cases stop minI now fetchQ st q with heq | ⟨heq, hnq⟩
    · rwa [heq] at hrec
    · rw [heq] at hrec
      rcases List.mem_append.mp hrec with h1 | h2
      · exact h1
      · exfalso
        have he2 : e = (q.source, q.id) := by simpa using h2
        have hq : q.source = s := by rw [he2] at hs; exact hs
        rw [hq, h] at hnq
        cases hnq

/-- C6: with `stop_after_no_result = true`, once a stop condition fires for
a source while processing a query URL (the source lands in
`sources_to_skip`), no later query URL of that source is fetched in the
same cycle; and the Pararius special case — the scanned URL redirecting to
a different final URL — always marks the source for skipping. -/
theorem stopCondition_halts_source (minI : String → Int) (now : Int)
    (fetchQ : Nat → Nat × Nat × String) (pre post : List QUrl) (u : QUrl)
    (st0 : QScanState)
    (hfired : (qRun true minI now fetchQ st0 (pre ++ [u])).skips.contains u.source = true) :
    (∀ e ∈ (qRun true minI now fetchQ st0 (pre ++ [u] ++ post)).fetched,
       e.1 = u.source → e ∈ (qRun true minI now fetchQ st0 (pre ++ [u])).fetched) ∧
    (∀ (st : QScanState) (q : QUrl) (nc tc : Nat) (fu : String),
       st.skips.contains q.source = false →
       qShouldScan minI now q = true →
       fetchQ q.id = (nc, tc, fu) →
       (lowerStr q.source == "pararius") = true →
       (q.queryurl != fu) = true →
       (qStep true minI now fetchQ st q).skips.contains q.source = true) := by
  constructor
  · have happ : qRun true minI now fetchQ st0 (pre ++ [u] ++ post) =
        qRun true minI now fetchQ (qRun true minI now fetchQ st0 (pre ++ [u])) post := by
      unfold qRun
      rw [List.foldl_append]
    rw [happ]
    exact qRun_no_fetch_for_skipped true minI now fetchQ post _ u.source hfired
  · intro st q nc tc fu hns hdue hf hpar hredir
    unfold qStep
    rw [hns, hdue, hf]
    rw [if_neg (by simp), if_neg (by simp)]
    dsimp only
    split
    · simp [List.contains_cons]
    · split
      · simp [List.contains_cons]
      · split
        · simp [List.contains_cons]
        · split
          · simp [List.contains_cons]
          · rename_i hc4
            exfalso
            exact hc4 (by simp [hpar, hredir])

/-- C6 witness: the redirected Pararius page-9 fires the stop, and page-10
of the same source is not fetched in the same cycle. -/
theorem stopCondition_halts_source_witness :
    (∀ e ∈ (qRun true (fun _ => 10) 0 c6fetch c6st0 ([] ++ [c6u1] ++ [c6u2])).fetched,
       e.1 = c6u1.source → e ∈ (qRun true (fun _ => 10) 0 c6fetch c6st0 ([] ++ [c6u1])).fetched) ∧
    (∀ (st : QScanState) (q : QUrl) (nc tc : Nat) (fu : String),
       st.skips.contains q.source = false →
       qShouldScan (fun _ => 10) 0 q = true →
       c6fetch q.id = (nc, tc, fu) →
       (lowerStr q.source == "pararius") = true →
       (q.queryurl != fu) = true →
       (qStep true (fun _ => 10) 0 c6fetch st q).skips.contains q.source = true) :=
  stopCondition_halts_source (fun _ => 10) 0 c6fetch [] [c6u2] c6u1 c6st0 (by decide)

/-! ## Claim C9 -/

/-- A fetch/parse exception makes `scan_source_city` return `(0, 0)` with
the database untouched. -/
theorem scanSourceCity_exception (now : Int) (users : List UserRow)
    (prefs : List PrefRow) (fetchC : String → String → Option (List Listing))
    (buildUrl : String → String → String) (s c : String) (db : ScrapeDB)
    (hfail : fetchC s c = none) :
    scanSourceCity now users prefs fetchC buildUrl s c db = ((0, 0), db) := by
  simp [scanSourceCity, hfail]

/-- Per-listing processing never touches `scan_history`. -/
theorem processScanListing_hist_unchanged (now : Int) (users : List UserRow)
    (prefs : List PrefRow) (city : String) (acc : Nat × ScrapeDB) (l : Listing) :
    (processScanListing now users prefs city acc l).2.hist = acc.2.hist := by
  unfold processScanListing
  dsimp only
  split <;> split <;> try split
  all_goals rfl

theorem foldl_processScanListing_hist (now : Int) (users : List UserRow)
    (prefs : List PrefRow) (city : String) (ls : List Listing) :
    ∀ acc : Nat × ScrapeDB,
      ((ls.foldl (processScanListing now users prefs city) acc).2.hist = acc.2.hist) := by
  induction ls with
  | nil => intro acc; rfl
  | cons l t ih =>
      intro acc
      rw [List.foldl_cons, ih, processScanListing_hist_unchanged]

theorem updateScanHistory_no_foreign_source (now : Int) (src c url : String)
    (n t : Nat) (hist : List ScanHistoryRow) (s : String)
    (hh : ∀ r ∈ hist, r.source ≠ s) (hsrc : src ≠ s) :
    ∀ r ∈ updateScanHistory now src c url n t hist, r.source ≠ s := by
  intro r hr
  unfold updateScanHistory at hr
  split at hr
  · obtain ⟨x, hx, hfx⟩ := List.mem_map.mp hr
    have hsx : r.source = x.source := by
      rw [← hfx]
      split <;> rfl
    rw [hsx]
    exact hh x hx
  · rcases List.mem_append.mp hr with h1 | h2
    · exact hh r h1
    · have : r.source = src := by
        have := List.mem_singleton.mp h2
        rw [this]
      rw [this]
      exact hsrc

/-- A city-loop step preserves "no history row of source `s`" whenever
every fetch of source `s` fails. -/
theorem cityStep_no_foreign_source (now : Int) (minI : String → Int)
    (users : List UserRow) (prefs : List PrefRow)
    (fetchC : String → String → Option (List Listing))
    (buildUrl : String → String → String) (s : String)
    (hfail : ∀ c, fetchC s c = none)
    (acc : (Nat × Nat) × ScrapeDB) (p : String × String)
    (hh : ∀ r ∈ acc.2.hist, r.source ≠ s) :
    ∀ r ∈ (cityStep now minI users prefs fetchC buildUrl acc p).2.hist, r.source ≠ s := by
  unfold cityStep
  dsimp only
  split
  · unfold scanSourceCity
    rcases hf : fetchC p.1 p.2 with _ | ls
    · simpa using hh
    · dsimp only
      intro r hr
      refine updateScanHistory_no_foreign_source now p.1 p.2
        (buildUrl p.1 p.2) _ ls.length _ s ?_ ?_ r (by
          simpa [foldl_processScanListing_hist] using hr)
      · simpa [foldl_processScanListing_hist] using hh
      · intro hps
        rw [hps] at hf
        rw [hfail p.2] at hf
        cases hf
  · exact hh

/-- A step on a pair of the failing source is the identity. -/
theorem cityStep_failing_identity (now : Int) (minI : String → Int)
    (users : List UserRow) (prefs : List PrefRow)
    (fetchC : String → String → Option (List Listing))
    (buildUrl : String → String → String) (s : String)
    (hfail : ∀ c, fetchC s c = none)
    (acc : (Nat × Nat) × ScrapeDB) (p : String × String) (hp : p.1 = s) :
    cityStep now minI users prefs fetchC buildUrl acc p = acc := by
  unfold cityStep
  dsimp only
  split
  · rw [hp, scanSourceCity_exception now users prefs fetchC buildUrl s p.2 acc.2 (hfail p.2)]
    simp
  · rfl

/-- C9 amended: when every fetch of source `s` raises, a scan cycle
(a) writes no `scan_history` row for `s` — rather than a `(0, 0)` row —
and (b) behaves exactly as the same cycle with the pairs of source `s`
removed: the other sources are scanned, upserted and enqueued unchanged. -/
theorem failing_source_isolated (now : Int) (minI : String → Int)
    (users : List UserRow) (prefs : List PrefRow)
    (fetchC : String → String → Option (List Listing))
    (buildUrl : String → String → String)
    (pairs : List (String × String)) (db : ScrapeDB) (s : String)
    (hfail : ∀ c, fetchC s c = none)
    (hinit : ∀ r ∈ db.hist, r.source ≠ s) :
    (∀ r ∈ (cityRun now minI users prefs fetchC buildUrl pairs db).2.hist, r.source ≠ s) ∧
    cityRun now minI users prefs fetchC buildUrl pairs db =
      cityRun now minI users prefs fetchC buildUrl (pairs.filter (fun p => p.1 != s)) db := by
  constructor
  · have haux : ∀ (ps : List (String × String)) (acc : (Nat × Nat) × ScrapeDB),
        (∀ r ∈ acc.2.hist, r.source ≠ s) →
        ∀ r ∈ (ps.foldl (cityStep now minI users prefs fetchC buildUrl) acc).2.hist,
          r.source ≠ s := by
      intro ps
      induction ps with
      | nil => exact fun acc h => h
      | cons p t ih =>
          intro acc h
          rw [List.foldl_cons]
          exact ih _ (cityStep_no_foreign_source now minI users prefs fetchC buildUrl
            s hfail acc p h)
    exact haux pairs ((0, 0), db) hinit
  · have haux : ∀ (ps : List (String × String)) (acc : (Nat × Nat) × ScrapeDB),
        ps.foldl (cityStep now minI users prefs fetchC buildUrl) acc =
          (ps.filter (fun p => p.1 != s)).foldl
            (cityStep now minI users prefs fetchC buildUrl) acc := by
      intro ps
      induction ps with
      | nil => exact fun acc => rfl
      | cons p t ih =>
          intro acc
          by_cases hp : p.1 = s
          · have hkeep : (p.1 != s) = false := by simp [hp]
            rw [List.foldl_cons, List.filter_cons, hkeep]
            rw [cityStep_failing_identity now minI users prefs fetchC buildUrl
              s hfail acc p hp]
            exact ih acc
          · have hkeep : (p.1 != s) = true := by simp [hp]
            rw [List.foldl_cons, List.filter_cons, hkeep]
            simp only [if_true]
            rw [List.foldl_cons]
            exact ih _
    exact haux pairs ((0, 0), db)

/-- C9 counterexample: with funda raising and pararius succeeding in the
same cycle, the pararius listing is upserted and enqueued and pararius
scan history is written, but no `scan_history` row at all is written for
funda — contradicting the claimed `new = 0, total = 0` row. -/
theorem failingSource_history_missing :
    ((cityRun 0 (fun _ => 10) [c9user] [c9pref] c9fetch c9buildUrl c9pairs c9db0).2.hist.find?
        (fun h => h.source == "funda")) = none ∧
    ((cityRun 0 (fun _ => 10) [c9user] [c9pref] c9fetch c9buildUrl c9pairs c9db0).2.hist.map
        (fun h => (h.source, h.city, h.new_listings_count, h.total_listings_count))) =
      [("pararius", "utrecht", 1, 1)] ∧
    ((cityRun 0 (fun _ => 10) [c9user] [c9pref] c9fetch c9buildUrl c9pairs c9db0).2.props.rows.map
        (·.id)) = [1] ∧
    ((cityRun 0 (fun _ => 10) [c9user] [c9pref] c9fetch c9buildUrl c9pairs c9db0).2.ndb.queue.map
        (fun e => (e.user_id, e.property_id, e.status))) = [(7, 1, NotifStatus.pending)] ∧
    (cityRun 0 (fun _ => 10) [c9user] [c9pref] c9fetch c9buildUrl c9pairs c9db0).1 = (1, 1) := by
  refine ⟨?_, ?_, ?_, ?_, ?_⟩ <;> decide

/-- C9 amended, witness at the concrete funda/pararius cycle. -/
theorem failing_source_isolated_witness :
    (∀ r ∈ (cityRun 0 (fun _ => 10) [c9user] [c9pref] c9fetch c9buildUrl c9pairs c9db0).2.hist,
        r.source ≠ "funda") ∧
    cityRun 0 (fun _ => 10) [c9user] [c9pref] c9fetch c9buildUrl c9pairs c9db0 =
      cityRun 0 (fun _ => 10) [c9user] [c9pref] c9fetch c9buildUrl
        (c9pairs.filter (fun p => p.1 != "funda")) c9db0 :=
  failing_source_isolated 0 (fun _ => 10) [c9user] [c9pref] c9fetch c9buildUrl
    c9pairs c9db0 "funda" (fun _ => rfl) (by simp [c9db0])

/-! ## Claim C5: daily cap

The claim's "successful-send count over the last 24 hours including sends
earlier in the same batch" for the entry at position `k` is
`historyCount24` at batch start plus the number of `sent` outcomes among
the first `k` entries belonging to the same user.  The invariant below
relates the worker's in-batch counter dictionary to that quantity. -/

theorem sentFor_cons (uid : Int) (n : QueueEntry) (o : Outcome)
    (es : List QueueEntry) (os : List Outcome) :
    sentFor uid (n :: es) (o :: os) = outcomeBump uid n o + sentFor uid es os := by
  unfold sentFor outcomeBump
  rw [List.zip_cons_cons, List.filter_cons]
  split
  · simp [Nat.add_comm]
  · simp

theorem lookupCount_setCount_self (uid : Int) (n : Nat) :
    ∀ counts, lookupCount (setCount counts uid n) uid = some n := by
  intro counts
  induction counts with
  | nil => simp [setCount, lookupCount]
  | cons c cs ih =>
      by_cases h : (c.1 == uid) = true
      · rw [show setCount (c :: cs) uid n = (uid, n) :: cs from by simp [setCount, h]]
        unfold lookupCount
        rw [List.find?_cons_of_pos (p := fun x : Int × Nat => x.1 == uid) cs (by simp)]
        rfl
      · rw [show setCount (c :: cs) uid n = c :: setCount cs uid n from by
          simp [setCount, h]]
        unfold lookupCount at ih ⊢
        rw [List.find?_cons_of_neg (p := fun x : Int × Nat => x.1 == uid) (setCount cs uid n)
          (by simpa using h)]
        exact ih

theorem lookupCount_setCount_other (u v : Int) (n : Nat) (huv : u ≠ v) :
    ∀ counts, lookupCount (setCount counts v n) u = lookupCount counts u := by
  intro counts
  induction counts with
  | nil =>
      unfold setCount lookupCount
      rw [List.find?_cons_of_neg (p := fun x : Int × Nat => x.1 == u) [] (by simp [Ne.symm huv])]
  | cons c cs ih =>
      by_cases h : (c.1 == v) = true
      · have hcv : c.1 = v := by simpa using h
        rw [show setCount (c :: cs) v n = (v, n) :: cs from by simp [setCount, h]]
        unfold lookupCount
        rw [List.find?_cons_of_neg (p := fun x : Int × Nat => x.1 == u) (a := (v, n)) cs
            (by simp [Ne.symm huv]),
          List.find?_cons_of_neg (p := fun x : Int × Nat => x.1 == u) (a := c) cs
            (by simp [hcv, Ne.symm huv])]
      · rw [show setCount (c :: cs) v n = c :: setCount cs v n from by
          simp [setCount, h]]
        unfold lookupCount at ih ⊢
        by_cases hcu : (c.1 == u) = true
        · rw [List.find?_cons_of_pos (p := fun x : Int × Nat => x.1 == u) (setCount cs v n) hcu,
            List.find?_cons_of_pos (p := fun x : Int × Nat => x.1 == u) cs hcu]
        · rw [List.find?_cons_of_neg (p := fun x : Int × Nat => x.1 == u) (setCount cs v n)
              (by simpa using hcu),
            List.find?_cons_of_neg (p := fun x : Int × Nat => x.1 == u) cs (by simpa using hcu)]
          exact ih

theorem filter_length_map_congr {α : Type} (f : α → α) (p : α → Bool) (l : List α)
    (h : ∀ x ∈ l, p (f x) = p x) :
    ((l.map f).filter p).length = (l.filter p).length := by
  induction l with
  | nil => rfl
  | cons x t ih =>
      have hx := h x (List.mem_cons_self x t)
      have ht := ih fun y hy => h y (List.mem_cons_of_mem _ hy)
      rw [List.map_cons, List.filter_cons, List.filter_cons, hx]
      split <;> simp [ht]

/-- Recording a send for user `v` does not change another user's 24-hour
history count. -/
theorem historyCount24_record_other (now t : Int) (hist : List HistoryRow)
    (v : Int) (p : Nat) (u : Int) (huv : u ≠ v) :
    historyCount24 now (recordNotificationSent t v p hist) u =
      historyCount24 now hist u := by
  unfold recordNotificationSent historyCount24
  split
  · apply filter_length_map_congr
    intro x _
    by_cases hm : (x.user_id == v && x.property_id == p) = true
    · have hm' : x.user_id = v ∧ x.property_id = p := by simpa using hm
      have hxu : (x.user_id == u) = false := by simp [hm'.1, Ne.symm huv]
      simp [hm, hxu]
    · simp [hm]
  · rw [List.filter_append]
    have hone : (List.filter (fun hr => hr.user_id == u && decide (now - 86400 < hr.sent_at))
        ([{ user_id := v, property_id := p, sent_at := t }] : List HistoryRow)) = [] := by
      simp [Ne.symm huv]
    rw [hone]
    simp

theorem workerCountsSound_congr (now : Int) (hist0 : List HistoryRow)
    (f g : Int → Nat) (st : WorkerState) (h : ∀ uid, f uid = g uid)
    (hs : workerCountsSound now hist0 f st) : workerCountsSound now hist0 g st := by
  intro uid
  refine ⟨fun hn => ?_, fun c hc => ?_⟩
  · obtain ⟨h1, h2⟩ := (hs uid).1 hn
    exact ⟨(h uid) ▸ h1, h2⟩
  · rw [← h uid]
    exact (hs uid).2 c hc

theorem outcomeBump_other (uid : Int) (n : QueueEntry) (o : Outcome)
    (huid : uid ≠ n.user_id) : outcomeBump uid n o = 0 := by
  unfold outcomeBump
  have : (n.user_id == uid) = false := by simp [Ne.symm huid]
  simp [this]

theorem outcomeBump_not_sent (uid : Int) (n : QueueEntry) (o : Outcome)
    (ho : o ≠ Outcome.sent) : outcomeBump uid n o = 0 := by
  unfold outcomeBump
  have : (o == Outcome.sent) = false := by simp [ho]
  simp [this]

theorem outcomeBump_sent_self (n : QueueEntry) :
    outcomeBump n.user_id n Outcome.sent = 1 := by
  simp [outcomeBump]

/-- A worker state sharing counter dictionary and history with a sound
state is sound for the same `off`. -/
theorem workerCountsSound_of_same (now : Int) (hist0 : List HistoryRow)
    (off : Int → Nat) (st st' : WorkerState) (hq : st'.counts = st.counts)
    (hh : st'.ndb.history = st.ndb.history)
    (hinv : workerCountsSound now hist0 off st) :
    workerCountsSound now hist0 off st' := by
  intro uid
  rw [hq, hh]
  exact hinv uid

/-- Preservation of the counter soundness relation across one worker step,
with the step's own contribution added to `off`. -/
theorem workerStep_sound (now : Int) (maxPerDay : Nat) (sendOk : Nat → Bool)
    (hist0 : List HistoryRow) (off off' : Int → Nat) (st : WorkerState) (n : QueueEntry)
    (hoffx : ∀ uid, off' uid = off uid + outcomeBump uid n (workerStep now maxPerDay sendOk st n).2)
    (hinv : workerCountsSound now hist0 off st) :
    workerCountsSound now hist0 off' (workerStep now maxPerDay sendOk st n).1 := by
  rcases hl : lookupCount st.counts n.user_id with _ | c0
  · -- user not yet counted: seed from the live history count
    obtain ⟨hoff, hlive⟩ := (hinv n.user_id).1 hl
    by_cases hmax : maxPerDay ≤ historyCount24 now st.ndb.history n.user_id
    · -- immediately rate limited
      have hstep : workerStep now maxPerDay sendOk st n =
          ({ ndb :=
               { st.ndb with
                 queue := updateNotificationStatus now n.id NotifStatus.rateLimited
                   none st.ndb.queue }
             counts :=
               setCount st.counts n.user_id
                 (historyCount24 now st.ndb.history n.user_id) },
           Outcome.rateLimited) := by
        simp only [workerStep, hl]
        rw [if_pos hmax]
      rw [hstep] at hoffx ⊢
      dsimp only at hoffx
      intro uid
      by_cases huid : uid = n.user_id
      · subst huid
        constructor
        · intro hn
          rw [lookupCount_setCount_self] at hn
          cases hn
        · intro c hc
          rw [lookupCount_setCount_self] at hc
          have hc' : c = historyCount24 now st.ndb.history n.user_id :=
            (Option.some.injEq _ _).mp hc.symm
          rw [hc', hlive, hoffx n.user_id, hoff]
          simp [outcomeBump]
      · constructor
        · intro hn
          rw [lookupCount_setCount_other uid n.user_id _ huid] at hn
          obtain ⟨h1, h2⟩ := (hinv uid).1 hn
          refine ⟨?_, h2⟩
          rw [hoffx uid, h1, outcomeBump_other uid n _ huid]
        · intro c hc
          rw [lookupCount_setCount_other uid n.user_id _ huid] at hc
          rw [hoffx uid, outcomeBump_other uid n _ huid]
          have := (hinv uid).2 c hc
          omega
    · by_cases hsend : sendOk n.id = true
      · -- send succeeds
        have hstep : workerStep now maxPerDay sendOk st n =
            ({ ndb :=
                 { queue := updateNotificationStatus now n.id NotifStatus.sent none
                     (updateNotificationStatus now n.id NotifStatus.processing
                       (some (n.attempts + 1)) st.ndb.queue)
                   nextQueueId := st.ndb.nextQueueId
                   history := recordNotificationSent now n.user_id n.property_id
                     st.ndb.history }
               counts :=
                 setCount (setCount st.counts n.user_id
                     (historyCount24 now st.ndb.history n.user_id)) n.user_id
                   (historyCount24 now st.ndb.history n.user_id + 1) },
             Outcome.sent) := by
          simp only [workerStep, hl]
          rw [if_neg hmax, if_pos hsend]
        rw [hstep] at hoffx ⊢
        dsimp only at hoffx
        intro uid
        by_cases huid : uid = n.user_id
        · subst huid
          constructor
          · intro hn
            rw [lookupCount_setCount_self] at hn
            cases hn
          · intro c hc
            rw [lookupCount_setCount_self] at hc
            have hc' : c = historyCount24 now st.ndb.history n.user_id + 1 :=
              (Option.some.injEq _ _).mp hc.symm
            rw [hc', hlive, hoffx n.user_id, hoff, outcomeBump_sent_self]
        · constructor
          · intro hn
            rw [lookupCount_setCount_other uid n.user_id _ huid,
              lookupCount_setCount_other uid n.user_id _ huid] at hn
            obtain ⟨h1, h2⟩ := (hinv uid).1 hn
            constructor
            · rw [hoffx uid, h1, outcomeBump_other uid n _ huid]
            · rw [historyCount24_record_other now now st.ndb.history n.user_id
                n.property_id uid huid]
              exact h2
          · intro c hc
            rw [lookupCount_setCount_other uid n.user_id _ huid,
              lookupCount_setCount_other uid n.user_id _ huid] at hc
            rw [hoffx uid, outcomeBump_other uid n _ huid]
            have := (hinv uid).2 c hc
            omega
      · -- send fails
        have hsend' : sendOk n.id = false := by
          cases hs : sendOk n.id
          · rfl
          · exact absurd hs hsend
        have hstep : workerStep now maxPerDay sendOk st n =
            ({ ndb :=
                 { queue := updateNotificationStatus now n.id NotifStatus.failed
                     (some (n.attempts + 1))
                     (updateNotificationStatus now n.id NotifStatus.processing
                       (some (n.attempts + 1)) st.ndb.queue)
                   nextQueueId := st.ndb.nextQueueId
                   history := st.ndb.history }
               counts :=
                 setCount st.counts n.user_id
                   (historyCount24 now st.ndb.history n.user_id) },
             Outcome.failed) := by
          simp only [workerStep, hl]
          rw [if_neg hmax, if_neg (by simp [hsend'])]
        rw [hstep] at hoffx ⊢
        dsimp only at hoffx
        intro uid
        by_cases huid : uid = n.user_id
        · subst huid
          constructor
          · intro hn
            rw [lookupCount_setCount_self] at hn
            cases hn
          · intro c hc
            rw [lookupCount_setCount_self] at hc
            have hc' : c = historyCount24 now st.ndb.history n.user_id :=
              (Option.some.injEq _ _).mp hc.symm
            rw [hc', hlive, hoffx n.user_id, hoff]
            simp [outcomeBump]
        · constructor
          · intro hn
            rw [lookupCount_setCount_other uid n.user_id _ huid] at hn
            obtain ⟨h1, h2⟩ := (hinv uid).1 hn
            refine ⟨?_, h2⟩
            rw [hoffx uid, h1, outcomeBump_other uid n _ huid]
          · intro c hc
            rw [lookupCount_setCount_other uid n.user_id _ huid] at hc
            rw [hoffx uid, outcomeBump_other uid n _ huid]
            have := (hinv uid).2 c hc
            omega
  · -- user already counted
    by_cases hmax : maxPerDay ≤ c0
    · have hstep : workerStep now maxPerDay sendOk st n =
          ({ ndb :=
               { st.ndb with
                 queue := updateNotificationStatus now n.id NotifStatus.rateLimited
                   none st.ndb.queue }
             counts := st.counts },
           Outcome.rateLimited) := by
        simp only [workerStep, hl]
        rw [if_pos hmax]
      rw [hstep] at hoffx ⊢
      dsimp only at hoffx
      intro uid
      constructor
      · intro hn
        obtain ⟨h1, h2⟩ := (hinv uid).1 hn
        refine ⟨?_, h2⟩
        rw [hoffx uid, h1]
        simp [outcomeBump]
      · intro c hc
        rw [hoffx uid]
        have := (hinv uid).2 c hc
        simp [outcomeBump]
        omega
    · by_cases hsend : sendOk n.id = true
      · have hstep : workerStep now maxPerDay sendOk st n =
            ({ ndb :=
                 { queue := updateNotificationStatus now n.id NotifStatus.sent none
                     (updateNotificationStatus now n.id NotifStatus.processing
                       (some (n.attempts + 1)) st.ndb.queue)
                   nextQueueId := st.ndb.nextQueueId
                   history := recordNotificationSent now n.user_id n.property_id
                     st.ndb.history }
               counts := setCount st.counts n.user_id (c0 + 1) },
             Outcome.sent) := by
          simp only [workerStep, hl]
          rw [if_neg hmax, if_neg hmax, if_pos hsend]
        rw [hstep] at hoffx ⊢
        dsimp only at hoffx
        intro uid
        by_cases huid : uid = n.user_id
        · subst huid
          constructor
          · intro hn
            rw [lookupCount_setCount_self] at hn
            cases hn
          · intro c hc
            rw [lookupCount_setCount_self] at hc
            have hc' : c = c0 + 1 :=
              (Option.some.injEq _ _).mp hc.symm
            have h0 := (hinv n.user_id).2 c0 hl
            rw [hc', h0, hoffx n.user_id, outcomeBump_sent_self]
            omega
        · constructor
          · intro hn
            rw [lookupCount_setCount_other uid n.user_id _ huid] at hn
            obtain ⟨h1, h2⟩ := (hinv uid).1 hn
            constructor
            · rw [hoffx uid, h1, outcomeBump_other uid n _ huid]
            · rw [historyCount24_record_other now now st.ndb.history n.user_id
                n.property_id uid huid]
              exact h2
          · intro c hc
            rw [lookupCount_setCount_other uid n.user_id _ huid] at hc
            rw [hoffx uid, outcomeBump_other uid n _ huid]
            have := (hinv uid).2 c hc
            omega
      · have hsend' : sendOk n.id = false := by
          cases hs : sendOk n.id
          · rfl
          · exact absurd hs hsend
        have hstep : workerStep now maxPerDay sendOk st n =
            ({ ndb :=
                 { queue := updateNotificationStatus now n.id NotifStatus.failed
                     (some (n.attempts + 1))
                     (updateNotificationStatus now n.id NotifStatus.processing
                       (some (n.attempts + 1)) st.ndb.queue)
                   nextQueueId := st.ndb.nextQueueId
                   history := st.ndb.history }
               counts := st.counts },
             Outcome.failed) := by
          simp only [workerStep, hl]
          rw [if_neg hmax, if_neg hmax, if_neg (by simp [hsend'])]
        rw [hstep] at hoffx ⊢
        dsimp only at hoffx
        intro uid
        constructor
        · intro hn
          obtain ⟨h1, h2⟩ := (hinv uid).1 hn
          refine ⟨?_, h2⟩
          rw [hoffx uid, h1]
          simp [outcomeBump]
        · intro c hc
          rw [hoffx uid]
          have := (hinv uid).2 c hc
          simp [outcomeBump]
          omega

theorem workerRun_sound (now : Int) (maxPerDay : Nat) (sendOk : Nat → Bool)
    (hist0 : List HistoryRow) :
    ∀ (batch : List QueueEntry) (off : Int → Nat) (st : WorkerState),
      workerCountsSound now hist0 off st →
      workerCountsSound now hist0
        (fun uid => off uid + sentFor uid batch (workerRun now maxPerDay sendOk st batch).2)
        (workerRun now maxPerDay sendOk st batch).1 := by
  intro batch
  induction batch with
  | nil =>
      intro off st hinv
      refine workerCountsSound_congr now hist0 off _ _ (fun uid => ?_) hinv
      simp [sentFor, workerRun]
  | cons n rest ih =>
      intro off st hinv
      have hstep := workerStep_sound now maxPerDay sendOk hist0 off
        (fun uid => off uid + outcomeBump uid n (workerStep now maxPerDay sendOk st n).2)
        st n (fun uid => rfl) hinv
      have hrest := ih
        (fun uid => off uid + outcomeBump uid n (workerStep now maxPerDay sendOk st n).2)
        (workerStep now maxPerDay sendOk st n).1 hstep
      have hrun : workerRun now maxPerDay sendOk st (n :: rest) =
          ((workerRun now maxPerDay sendOk (workerStep now maxPerDay sendOk st n).1 rest).1,
           (workerStep now maxPerDay sendOk st n).2 ::
             (workerRun now maxPerDay sendOk (workerStep now maxPerDay sendOk st n).1 rest).2) :=
        rfl
      rw [hrun]
      refine workerCountsSound_congr now hist0 _ _ _ (fun uid => ?_) hrest
      rw [sentFor_cons]
      have hb : (fun uid => off uid +
          outcomeBump uid n (workerStep now maxPerDay sendOk st n).2) uid =
          off uid + outcomeBump uid n (workerStep now maxPerDay sendOk st n).2 := rfl
      omega

/-- When a user's daily sent count — batch-start history plus in-batch
sends, which the invariant equates with the worker's counter — has reached
the cap, the worker resolves the user's next entry to `rate_limited`. -/
theorem workerStep_caps (now : Int) (maxPerDay : Nat) (sendOk : Nat → Bool)
    (hist0 : List HistoryRow) (off : Int → Nat) (st : WorkerState) (n : QueueEntry)
    (hinv : workerCountsSound now hist0 off st)
    (hcap : maxPerDay ≤ historyCount24 now hist0 n.user_id + off n.user_id) :
    (workerStep now maxPerDay sendOk st n).2 = Outcome.rateLimited := by
  rcases hl : lookupCount st.counts n.user_id with _ | c0
  · obtain ⟨hoff, hlive⟩ := (hinv n.user_id).1 hl
    have hmax : maxPerDay ≤ historyCount24 now st.ndb.history n.user_id := by
      rw [hlive]
      omega
    simp only [workerStep, hl]
    rw [if_pos hmax]
  · have h0 := (hinv n.user_id).2 c0 hl
    have hmax : maxPerDay ≤ c0 := by omega
    simp only [workerStep, hl]
    rw [if_pos hmax]

theorem workerRun_length (now : Int) (maxPerDay : Nat) (sendOk : Nat → Bool) :
    ∀ (batch : List QueueEntry) (st : WorkerState),
      (workerRun now maxPerDay sendOk st batch).2.length = batch.length := by
  intro batch
  induction batch with
  | nil => intro st; rfl
  | cons n rest ih => intro st; simp [workerRun, ih]

theorem workerRun_append (now : Int) (maxPerDay : Nat) (sendOk : Nat → Bool) :
    ∀ (xs ys : List QueueEntry) (st : WorkerState),
      (workerRun now maxPerDay sendOk st (xs ++ ys)).2 =
        (workerRun now maxPerDay sendOk st xs).2 ++
          (workerRun now maxPerDay sendOk
            (workerRun now maxPerDay sendOk st xs).1 ys).2 := by
  intro xs
  induction xs with
  | nil => intro ys st; rfl
  | cons n rest ih => intro ys st; simp [workerRun, ih]

/-- C5: if a user's successful-send count over the last 24 hours at batch
start plus the sends made earlier in the same batch has reached
`MAX_NOTIFICATIONS_PER_USER_PER_DAY`, the worker resolves the user's next
picked entry to `rate_limited`, never `sent`. -/
theorem dailyCap_resolves_rate_limited (now : Int) (maxPerDay : Nat)
    (sendOk : Nat → Bool) (ndb0 : NotifyDB) (pre post : List QueueEntry) (n : QueueEntry)
    (hcap : maxPerDay ≤ historyCount24 now ndb0.history n.user_id +
      sentFor n.user_id pre
        (workerRun now maxPerDay sendOk { ndb := ndb0, counts := [] } pre).2) :
    (workerRun now maxPerDay sendOk { ndb := ndb0, counts := [] }
        (pre ++ n :: post)).2.get? pre.length = some Outcome.rateLimited := by
  have hbase : workerCountsSound now ndb0.history (fun _ => 0)
      { ndb := ndb0, counts := [] } := by
    intro uid
    constructor
    · intro _
      exact ⟨rfl, rfl⟩
    · intro c hc
      simp [lookupCount] at hc
  have hpre := workerRun_sound now maxPerDay sendOk ndb0.history pre (fun _ => 0)
    { ndb := ndb0, counts := [] } hbase
  have hpre' := workerCountsSound_congr now ndb0.history _
    (fun uid => sentFor uid pre
      (workerRun now maxPerDay sendOk { ndb := ndb0, counts := [] } pre).2) _
    (fun uid => by simp) hpre
  have hhead := workerStep_caps now maxPerDay sendOk ndb0.history _ _ n hpre' hcap
  rw [workerRun_append now maxPerDay sendOk pre (n :: post) { ndb := ndb0, counts := [] }]
  rw [List.get?_append_right (by rw [workerRun_length])]
  rw [workerRun_length, Nat.sub_self]
  have hcons : (workerRun now maxPerDay sendOk
      (workerRun now maxPerDay sendOk { ndb := ndb0, counts := [] } pre).1 (n :: post)).2 =
      (workerStep now maxPerDay sendOk
        (workerRun now maxPerDay sendOk { ndb := ndb0, counts := [] } pre).1 n).2 ::
      (workerRun now maxPerDay sendOk
        (workerStep now maxPerDay sendOk
          (workerRun now maxPerDay sendOk { ndb := ndb0, counts := [] } pre).1 n).1 post).2 :=
    rfl
  rw [hcons, hhead]
  rfl

/-- C5 witness: with a cap of 1 and one historical send, user 7's next
entry resolves to `rate_limited`. -/
theorem dailyCap_resolves_rate_limited_witness :
    (workerRun 0 1 (fun _ => true) { ndb := c5ndb, counts := [] }
        (([] : List QueueEntry) ++ c5n :: [])).2.get? ([] : List QueueEntry).length =
      some Outcome.rateLimited :=
  dailyCap_resolves_rate_limited 0 1 (fun _ => true) c5ndb [] [] c5n (by decide)

/-! ## Claim C8 -/

theorem mem_insertByCreatedAt {x e : QueueEntry} :
    ∀ {l : List QueueEntry}, x ∈ insertByCreatedAt e l → x = e ∨ x ∈ l := by
  intro l
  induction l with
  | nil =>
      intro hx
      simp [insertByCreatedAt] at hx
      exact Or.inl hx
  | cons y t ih =>
      intro hx
      unfold insertByCreatedAt at hx
      split at hx
      · rcases List.mem_cons.mp hx with h | h
        · exact Or.inl h
        · exact Or.inr h
      · rcases List.mem_cons.mp hx with h | h
        · exact Or.inr (h ▸ List.mem_cons_self y t)
        · rcases ih h with h' | h'
          · exact Or.inl h'
          · exact Or.inr (List.mem_cons_of_mem _ h')

theorem mem_sortByCreatedAt {x : QueueEntry} :
    ∀ {l : List QueueEntry}, x ∈ sortByCreatedAt l → x ∈ l := by
  intro l
  induction l with
  | nil => intro hx; exact hx
  | cons y t ih =>
      intro hx
      rcases mem_insertByCreatedAt (l := sortByCreatedAt t) hx with h | h
      · exact h ▸ List.mem_cons_self y t
      · exact List.mem_cons_of_mem _ (ih h)

/-- C8 amended: a failed send resolves the entry to `failed` with its
attempts counter incremented by one — but a `failed` entry is never picked
again: `get_pending_notifications` returns only `pending` rows, so
`failed` is terminal (there is no re-pick attempt cap). -/
theorem failedSend_terminal (now : Int) (maxPerDay : Nat) (sendOk : Nat → Bool)
    (st : WorkerState) (n : QueueEntry) (c0 : Nat)
    (hl : lookupCount st.counts n.user_id = some c0) (hmax : c0 < maxPerDay)
    (hsend : sendOk n.id = false) :
    ((workerStep now maxPerDay sendOk st n).2 = Outcome.failed ∧
     (workerStep now maxPerDay sendOk st n).1.ndb.queue =
       updateNotificationStatus now n.id NotifStatus.failed (some (n.attempts + 1))
         (updateNotificationStatus now n.id NotifStatus.processing
           (some (n.attempts + 1)) st.ndb.queue)) ∧
    (∀ (limit : Nat) (users : List UserRow) (props : PropertyDB)
       (queue : List QueueEntry) (e : QueueEntry),
       e ∈ getPendingNotifications limit users props queue →
       e.status = NotifStatus.pending) := by
  constructor
  · have hstep : workerStep now maxPerDay sendOk st n =
        ({ ndb :=
             { queue := updateNotificationStatus now n.id NotifStatus.failed
                 (some (n.attempts + 1))
                 (updateNotificationStatus now n.id NotifStatus.processing
                   (some (n.attempts + 1)) st.ndb.queue)
               nextQueueId := st.ndb.nextQueueId
               history := st.ndb.history }
           counts := st.counts },
         Outcome.failed) := by
      simp only [workerStep, hl]
      rw [if_neg (by omega), if_neg (by omega), if_neg (by simp [hsend])]
    rw [hstep]
    exact ⟨rfl, rfl⟩
  · intro limit users props queue e he
    unfold getPendingNotifications at he
    have he' := mem_sortByCreatedAt (List.mem_of_mem_take he)
    have hp := (List.mem_filter.mp he').2
    have hp1 : (e.status == NotifStatus.pending) = true := by
      rcases Bool.and_eq_true_iff.mp hp with ⟨hp1, _⟩
      rcases Bool.and_eq_true_iff.mp hp1 with ⟨hp2, _⟩
      exact hp2
    simpa using hp1

/-- C8 counterexample: a `failed` entry of an active, enabled user over an
existing property is not returned by `get_pending_notifications` — it is
not eligible for re-pick, contrary to the claim. -/
theorem failed_entry_not_repicked :
    getPendingNotifications 100 [c8user] c8props [c8q] = [] := by
  rfl

/-- C8 amended, witness: a failing send flips the entry to `failed` with
attempts 1, and picks return only pending rows. -/
theorem failedSend_terminal_witness :
    ((workerStep 0 5 (fun _ => false) c8st c8n).2 = Outcome.failed ∧
     (workerStep 0 5 (fun _ => false) c8st c8n).1.ndb.queue =
       updateNotificationStatus 0 c8n.id NotifStatus.failed (some (c8n.attempts + 1))
         (updateNotificationStatus 0 c8n.id NotifStatus.processing
           (some (c8n.attempts + 1)) c8st.ndb.queue)) ∧
    (∀ (limit : Nat) (users : List UserRow) (props : PropertyDB)
       (queue : List QueueEntry) (e : QueueEntry),
       e ∈ getPendingNotifications limit users props queue →
       e.status = NotifStatus.pending) :=
  failedSend_terminal 0 5 (fun _ => false) c8st c8n 0 (by decide) (by decide) rfl

end Letify
